import Mathlib

/-!
# Verification of the aida-import-platform ingestion core

A shallow embedding of the CSV-ingestion pipeline of the repository
(`src/app/api/ingest/shared.ts`, `src/app/api/ingest/preview/route.ts`,
`src/app/api/ingest/upsert/route.ts`) together with proofs about its
specification.

JavaScript runtime values that flow through the mapping engine are modelled
by the inductive type `Val` (undefined, null, booleans, numbers, strings,
arrays, objects).  Numbers are modelled by the exact decimal type `Dec`
(an integer mantissa scaled by a power of ten, kept in canonical form):
every numeric computation in the embedded fragment — decimal parsing,
`ft*12+in`, multiplication by `2.54`, the fixed shoe-size offsets,
rounding, minima and maxima — stays inside the decimal fractions, where
exact decimals and IEEE doubles round identically for all values far from
a representation boundary (as all values in this code base are).
JavaScript objects used as dictionaries are modelled as association lists
with replace-or-append update, mirroring property-assignment semantics.
-/

set_option maxRecDepth 100000

namespace Aida

/-! ## Exact decimal numbers -/

/-- An exact decimal `num / 10 ^ exp`.  All constructions below go through
`Dec.mk'`, which normalizes by stripping factors of ten, so that
structural equality is semantic equality. -/
structure Dec where
  num : Int
  exp : Nat
  deriving DecidableEq

namespace Dec

/-- Strip trailing factors of ten from the mantissa. -/
def normAux : Int → Nat → Dec
  | n, 0 => ⟨n, 0⟩
  | n, e + 1 => if n % 10 = 0 then normAux (n / 10) e else ⟨n, e + 1⟩

/-- The canonical decimal with value `n / 10 ^ e`. -/
def mk' (n : Int) (e : Nat) : Dec := normAux n e

def ofInt (n : Int) : Dec := ⟨n, 0⟩

def ofNat (n : Nat) : Dec := ⟨(n : Int), 0⟩

instance : OfNat Dec n := ⟨ofNat n⟩

def neg (a : Dec) : Dec := ⟨-a.num, a.exp⟩

def add (a b : Dec) : Dec :=
  mk' (a.num * (10 : Int) ^ b.exp + b.num * (10 : Int) ^ a.exp) (a.exp + b.exp)

def sub (a b : Dec) : Dec := add a (neg b)

def mul (a b : Dec) : Dec := mk' (a.num * b.num) (a.exp + b.exp)

/-- Boolean `a ≤ b` by cross multiplication. -/
def ble (a b : Dec) : Bool := a.num * (10 : Int) ^ b.exp ≤ b.num * (10 : Int) ^ a.exp

/-- `Math.min` of two numbers. -/
def min' (a b : Dec) : Dec := if ble a b then a else b

/-- `Math.max` of two numbers. -/
def max' (a b : Dec) : Dec := if ble a b then b else a

/-- JavaScript `Math.round`: `⌊x + 1/2⌋` (round half toward `+∞`). -/
def roundJs (a : Dec) : Int := Int.fdiv (2 * a.num + (10 : Int) ^ a.exp) (2 * (10 : Int) ^ a.exp)

/-- Whether the value is zero (for JS truthiness of numbers). -/
def isZero (a : Dec) : Bool := a.num = 0

end Dec

/-! ## JavaScript values -/

/-- A JavaScript runtime value as used by the ingestion code.  `vFun`
models the one function value producible by the mapping engine: the inner
closure returned when the curried `SAFE_TRANSFORMS.enumSanitize` is
applied by name through the generic transform dispatch; it captures its
argument and is never invoked. -/
inductive Val where
  | vUndef : Val
  | vNull : Val
  | vBool (b : Bool) : Val
  | vNum (d : Dec) : Val
  | vStr (s : String) : Val
  | vArr (items : List Val) : Val
  | vObj (fields : List (String × Val)) : Val
  | vFun (captured : Val) : Val

namespace Val

mutual

def deq : (a b : Val) → Decidable (a = b)
  | .vUndef, .vUndef => .isTrue rfl
  | .vNull, .vNull => .isTrue rfl
  | .vBool x, .vBool y =>
    match decEq x y with
    | .isTrue h => .isTrue (h ▸ rfl)
    | .isFalse h => .isFalse (fun he => h (Val.vBool.inj he))
  | .vNum x, .vNum y =>
    match decEq x y with
    | .isTrue h => .isTrue (h ▸ rfl)
    | .isFalse h => .isFalse (fun he => h (Val.vNum.inj he))
  | .vStr x, .vStr y =>
    match decEq x y with
    | .isTrue h => .isTrue (h ▸ rfl)
    | .isFalse h => .isFalse (fun he => h (Val.vStr.inj he))
  | .vArr x, .vArr y =>
    match deqList x y with
    | .isTrue h => .isTrue (h ▸ rfl)
    | .isFalse h => .isFalse (fun he => h (Val.vArr.inj he))
  | .vObj x, .vObj y =>
    match deqFields x y with
    | .isTrue h => .isTrue (h ▸ rfl)
    | .isFalse h => .isFalse (fun he => h (Val.vObj.inj he))
  | .vFun x, .vFun y =>
    match deq x y with
    | .isTrue h => .isTrue (h ▸ rfl)
    | .isFalse h => .isFalse (fun he => h (Val.vFun.inj he))
  | .vUndef, .vNull | .vUndef, .vBool _ | .vUndef, .vNum _ | .vUndef, .vStr _ | .vUndef, .vArr _ | .vUndef, .vObj _ | .vUndef, .vFun _
  | .vNull, .vUndef | .vNull, .vBool _ | .vNull, .vNum _ | .vNull, .vStr _ | .vNull, .vArr _ | .vNull, .vObj _ | .vNull, .vFun _
  | .vBool _, .vUndef | .vBool _, .vNull | .vBool _, .vNum _ | .vBool _, .vStr _ | .vBool _, .vArr _ | .vBool _, .vObj _ | .vBool _, .vFun _
  | .vNum _, .vUndef | .vNum _, .vNull | .vNum _, .vBool _ | .vNum _, .vStr _ | .vNum _, .vArr _ | .vNum _, .vObj _ | .vNum _, .vFun _
  | .vStr _, .vUndef | .vStr _, .vNull | .vStr _, .vBool _ | .vStr _, .vNum _ | .vStr _, .vArr _ | .vStr _, .vObj _ | .vStr _, .vFun _
  | .vArr _, .vUndef | .vArr _, .vNull | .vArr _, .vBool _ | .vArr _, .vNum _ | .vArr _, .vStr _ | .vArr _, .vObj _ | .vArr _, .vFun _
  | .vObj _, .vUndef | .vObj _, .vNull | .vObj _, .vBool _ | .vObj _, .vNum _ | .vObj _, .vStr _ | .vObj _, .vArr _ | .vObj _, .vFun _
  | .vFun _, .vUndef | .vFun _, .vNull | .vFun _, .vBool _ | .vFun _, .vNum _ | .vFun _, .vStr _ | .vFun _, .vArr _ | .vFun _, .vObj _ =>
    .isFalse (by intro h; exact Val.noConfusion h)

def deqList : (a b : List Val) → Decidable (a = b)
  | [], [] => .isTrue rfl
  | [], _ :: _ => .isFalse (by intro h; exact List.noConfusion h)
  | _ :: _, [] => .isFalse (by intro h; exact List.noConfusion h)
  | x :: xs, y :: ys =>
    match deq x y with
    | .isTrue h1 =>
      match deqList xs ys with
      | .isTrue h2 => .isTrue (by rw [h1, h2])
      | .isFalse h2 => .isFalse (fun he => h2 (List.cons.inj he).2)
    | .isFalse h1 => .isFalse (fun he => h1 (List.cons.inj he).1)

def deqFields : (a b : List (String × Val)) → Decidable (a = b)
  | [], [] => .isTrue rfl
  | [], _ :: _ => .isFalse (by intro h; exact List.noConfusion h)
  | _ :: _, [] => .isFalse (by intro h; exact List.noConfusion h)
  | (k1, v1) :: xs, (k2, v2) :: ys =>
    match decEq k1 k2 with
    | .isTrue hk =>
      match deq v1 v2 with
      | .isTrue hv =>
        match deqFields xs ys with
        | .isTrue h2 => .isTrue (by rw [hk, hv, h2])
        | .isFalse h2 => .isFalse (fun he => h2 (List.cons.inj he).2)
      | .isFalse hv => .isFalse (fun he => hv (congrArg Prod.snd (List.cons.inj he).1))
    | .isFalse hk => .isFalse (fun he => hk (congrArg Prod.fst (List.cons.inj he).1))

end

instance : DecidableEq Val := deq

instance : Inhabited Val := ⟨Val.vUndef⟩

/-- JavaScript truthiness: `undefined`, `null`, `false`, `0`, `NaN` and `""`
are falsy; all other values (including any array or object) are truthy.
NaN does not arise in the embedded fragment. -/
def truthy : Val → Bool
  | .vUndef => false
  | .vNull => false
  | .vBool b => b
  | .vNum d => !d.isZero
  | .vStr s => s ≠ ""
  | .vArr _ => true
  | .vObj _ => true
  | .vFun _ => true

/-- JavaScript `x == null` (loose equality against null): true exactly for
`null` and `undefined`. -/
def looseNull : Val → Bool
  | .vUndef => true
  | .vNull => true
  | _ => false

/-- JavaScript `a ?? b`: `b` when `a` is `null` or `undefined`, else `a`. -/
def nullish (a b : Val) : Val := if looseNull a then b else a

/-- JavaScript `a || b` on values. -/
def jsOr (a b : Val) : Val := if truthy a then a else b

end Val

export Val (vUndef vNull vBool vNum vStr vArr vObj vFun)

/-! ## Character and string helpers (JavaScript semantics)

Core `String.replace`/`String.splitOn` are avoided (they are defined by
well-founded recursion, which the kernel cannot evaluate); the structural
equivalents below are used instead.
-/

/-- JavaScript `\s` whitespace for the characters that can occur in the
embedded strings (space, tab, line feed, carriage return, vertical tab,
form feed, NBSP). -/
def isJsWs (c : Char) : Bool :=
  c = ' ' || c = '\t' || c = '\n' || c = '\r' || c = '\x0b' || c = '\x0c' || c = ' '

def isDigitCh (c : Char) : Bool := '0' ≤ c && c ≤ '9'

def isAsciiLowerAlnum (c : Char) : Bool := ('a' ≤ c && c ≤ 'z') || isDigitCh c

/-- JavaScript word character (`\w`, and the `\b` boundary class):
`[A-Za-z0-9_]`. -/
def isWordCh (c : Char) : Bool :=
  ('a' ≤ c && c ≤ 'z') || ('A' ≤ c && c ≤ 'Z') || isDigitCh c || c = '_'

/-- `String.prototype.trim` on a character list. -/
def trimChars (l : List Char) : List Char :=
  ((l.dropWhile isJsWs).reverse.dropWhile isJsWs).reverse

def jsTrim (s : String) : String := String.mk (trimChars s.data)

/-- `toLowerCase` (ASCII range; the inputs the claims exercise are ASCII
plus the unicode fraction/prime characters, which have no case). -/
def lowerStr (s : String) : String := String.mk (s.data.map Char.toLower)

def upperStr (s : String) : String := String.mk (s.data.map Char.toUpper)

/-- Substring containment (`String.prototype.includes`). -/
def containsSub : List Char → List Char → Bool
  | [], pat => pat.isEmpty
  | s@(_ :: t), pat => pat.isPrefixOf s || containsSub t pat

def strIncludes (s pat : String) : Bool := containsSub s.data pat.data

/-- Global, leftmost, non-overlapping replacement of a non-empty pattern
(the behaviour of `String.prototype.replace` with a global plain-text
regex).  The fuel argument decreases structurally; it is initialized to
the string length, which suffices because every step consumes at least
one character of the input. -/
def replaceAux (pat rep : List Char) : Nat → List Char → List Char
  | 0, s => s
  | _ + 1, [] => []
  | fuel + 1, s@(c :: t) =>
    if pat.isPrefixOf s ∧ pat ≠ [] then rep ++ replaceAux pat rep fuel (s.drop pat.length)
    else c :: replaceAux pat rep fuel t

def replaceStr (s pat rep : String) : String :=
  String.mk (replaceAux pat.data rep.data s.data.length s.data)

/-- `String.prototype.split` on a single-character separator. -/
def splitOnCharAux (sep : Char) : List Char → List Char → List String
  | [], acc => [String.mk acc.reverse]
  | c :: t, acc =>
    if c = sep then String.mk acc.reverse :: splitOnCharAux sep t []
    else splitOnCharAux sep t (c :: acc)

def splitOnChar (sep : Char) (s : String) : List String := splitOnCharAux sep s.data []

def digitToNat (c : Char) : Nat := c.toNat - '0'.toNat

def digitsToNat (l : List Char) : Nat := l.foldl (fun acc c => acc * 10 + digitToNat c) 0

/-- Value of a matched decimal literal `intPart[.fracPart]`. -/
def decimalVal (intPart fracPart : List Char) : Dec :=
  Dec.mk' ((digitsToNat intPart : Int) * (10 : Int) ^ fracPart.length + (digitsToNat fracPart : Int))
    fracPart.length

/-- Digits of a natural number (kernel-evaluable rendering). -/
def natDigits : Nat → Nat → List Char
  | 0, _ => []
  | _ + 1, n =>
    if n = 0 then []
    else natDigits n (n / 10) ++ [Char.ofNat ('0'.toNat + n % 10)]

def natToStr (n : Nat) : String :=
  if n = 0 then "0" else String.mk (natDigits (n + 1) n)

def intToStr (n : Int) : String :=
  if n < 0 then "-" ++ natToStr n.natAbs else natToStr n.natAbs

/-- JavaScript rendering of a number.  Canonical `Dec` values print their
shortest decimal expansion, matching JavaScript for the exact decimals
arising here. -/
def decToString (d : Dec) : String :=
  if d.exp = 0 then intToStr d.num
  else
    let digits := (natToStr d.num.natAbs).data
    let digits := if digits.length ≤ d.exp then List.replicate (d.exp + 1 - digits.length) '0' ++ digits else digits
    let intPart := digits.take (digits.length - d.exp)
    let fracPart := digits.drop (digits.length - d.exp)
    (if d.num < 0 then "-" else "") ++ String.mk intPart ++ "." ++ String.mk fracPart

mutual

/-- JavaScript `String(v)` for the value shapes reachable in this code
(function sources are irrelevant and rendered as a placeholder). -/
def Val.jsToString : Val → String
  | .vUndef => "undefined"
  | .vNull => "null"
  | .vBool b => if b then "true" else "false"
  | .vNum d => decToString d
  | .vStr s => s
  | .vArr items => Val.jsToStringArr items
  | .vObj _ => "[object Object]"
  | .vFun _ => "function"

/-- `Array.prototype.toString`: elements joined with commas, with `null`
and `undefined` elements rendered empty. -/
def Val.jsToStringArr : List Val → String
  | [] => ""
  | [x] =>
    (match x with
     | .vUndef => ""
     | .vNull => ""
     | v => Val.jsToString v)
  | x :: t =>
    (match x with
     | .vUndef => ""
     | .vNull => ""
     | v => Val.jsToString v) ++ "," ++ Val.jsToStringArr t

end

/-- A JavaScript object used as a string-keyed record
(e.g. the `models` record built by `applyMappingToRow`). -/
abbrev RecordV := List (String × Val)

namespace RecordV

/-- Property read `r[k]`: `none` models an absent key (JS `undefined`). -/
def getF : RecordV → String → Option Val
  | [], _ => none
  | (k', v) :: t, k => if k' = k then some v else getF t k

/-- Property write `r[k] = v`: replace in place if present, else append. -/
def setF : RecordV → String → Val → RecordV
  | [], k, v => [(k, v)]
  | (k', v') :: t, k, v => if k' = k then (k, v) :: t else (k', v') :: setF t k v

/-- Read of a key as a `Val`, with absence collapsing to `undefined`
(JS member access on a present object). -/
def getV (r : RecordV) (k : String) : Val := (r.getF k).getD .vUndef

@[simp] theorem getF_setF_same (r : RecordV) (k : String) (v : Val) :
    (r.setF k v).getF k = some v := by
  induction r with
  | nil => simp [getF, setF]
  | cons hd t ih =>
    obtain ⟨k', v'⟩ := hd
    by_cases h : k' = k <;> simp [getF, setF, h, ih]

theorem getF_setF_ne (r : RecordV) (k k' : String) (v : Val) (h : k ≠ k') :
    (r.setF k v).getF k' = r.getF k' := by
  induction r with
  | nil => simp [getF, setF, h]
  | cons hd t ih =>
    obtain ⟨k0, v0⟩ := hd
    by_cases h0 : k0 = k
    · subst h0; simp [getF, setF, h]
    · simp only [setF, if_neg h0]
      by_cases h1 : k0 = k' <;> simp [getF, h1, ih]

end RecordV

/-- Keep only the characters `[0-9.-]` (the `replace(/[^0-9.-]/g, '')`
strip used by `parseNumber` and the `toCentimeters` fallback). -/
def stripNonNumDotMinus (s : String) : String :=
  String.mk (s.data.filter (fun c => isDigitCh c || c = '.' || c = '-'))

/-- Body of a JavaScript numeric literal over the alphabet `[0-9.]`:
`digits* ('.' digits*)?` with at least one digit, consuming everything. -/
def parseNumBody (l : List Char) : Option Dec :=
  let ds := l.takeWhile isDigitCh
  let r1 := l.dropWhile isDigitCh
  match r1 with
  | [] => if ds = [] then none else some (decimalVal ds [])
  | '.' :: r2 =>
    let fs := r2.takeWhile isDigitCh
    let r3 := r2.dropWhile isDigitCh
    if r3 = [] then
      if ds = [] ∧ fs = [] then none else some (decimalVal ds fs)
    else none
  | _ => none

/-- JavaScript `Number(s)` restricted to strings over the alphabet `[0-9.-]`
(the only alphabet it is applied to after the strip above): the empty
string is `0`, an optional single leading minus, then a decimal body;
anything else is `NaN`, modelled as `none`. -/
def jsNumberOfStripped (s : String) : Option Dec :=
  match s.data with
  | [] => some (Dec.ofNat 0)
  | '-' :: rest => (parseNumBody rest).map Dec.neg
  | l => parseNumBody l

/-! ## Scanners for the regular expressions of `toCentimeters`

Each scanner mirrors the corresponding JavaScript regex by leftmost attempt
with advance-by-one on failure.  The patterns' greedy groups never benefit
from backtracking (after a maximal digit/fraction munch the follow-up
literal can never match one character earlier), so maximal munch is exact.
-/

/-- At the current position, match `\d+(?:\.\d+)?` (greedy), returning the
value and the rest.  A trailing `.` not followed by a digit is left
unconsumed, as the regex group `(?:\.\d+)?` would fail and backtrack. -/
def numThen (l : List Char) : Option (Dec × List Char) :=
  let ds := l.takeWhile isDigitCh
  let r1 := l.dropWhile isDigitCh
  if ds = [] then none
  else
    match r1 with
    | '.' :: r2 =>
      let fs := r2.takeWhile isDigitCh
      let r3 := r2.dropWhile isDigitCh
      if fs = [] then some (decimalVal ds [], r1) else some (decimalVal ds fs, r3)
    | _ => some (decimalVal ds [], r1)

/-- Scan for `/(\d+(?:\.\d+)?)\s*cm/` and return the captured number. -/
def cmScan : List Char → Option Dec
  | [] => none
  | l@(_ :: rest) =>
    match numThen l with
    | some (q, r) =>
      if "cm".data.isPrefixOf (r.dropWhile isJsWs) then some q else cmScan rest
    | none => cmScan rest

/-- After the feet unit, match the optional inches group
`(\d*(?:\.\d+)?)?`: `none` models an empty capture (which the source
treats as `0` via its falsiness check). -/
def optInches (l : List Char) : Option Dec :=
  let ds := l.takeWhile isDigitCh
  let r1 := l.dropWhile isDigitCh
  match r1 with
  | '.' :: r2 =>
    let fs := r2.takeWhile isDigitCh
    if fs = [] then (if ds = [] then none else some (decimalVal ds []))
    else some (decimalVal ds fs)
  | _ => if ds = [] then none else some (decimalVal ds [])

/-- Scan for `/(\d+(?:\.\d+)?)\s*(?:ft|')\s*(\d*(?:\.\d+)?)?\s*(?:in|inch|inches|\"|)?/`,
returning the feet value and the inches value (0 when the inches group is
empty, as `ftInMatch[2] ? Number(ftInMatch[2]) : 0` does). -/
def ftInScan : List Char → Option (Dec × Dec)
  | [] => none
  | l@(_ :: rest) =>
    match numThen l with
    | some (ft, r) =>
      let r2 := r.dropWhile isJsWs
      let afterUnit : Option (List Char) :=
        if "ft".data.isPrefixOf r2 then some (r2.drop 2)
        else match r2 with
          | '\'' :: r3 => some r3
          | _ => none
      match afterUnit with
      | some r3 => some (ft, (optInches (r3.dropWhile isJsWs)).getD (Dec.ofNat 0))
      | none => ftInScan rest
    | none => ftInScan rest

/-- Scan for `/(\d+(?:\.\d+)?)\s*(?:in|inch|inches|\")/` (the alternatives
`inch`/`inches` are subsumed by the prefix `in`). -/
def inScan : List Char → Option Dec
  | [] => none
  | l@(_ :: rest) =>
    match numThen l with
    | some (q, r) =>
      let r2 := r.dropWhile isJsWs
      if "in".data.isPrefixOf r2 then some q
      else match r2 with
        | '"' :: _ => some q
        | _ => inScan rest
    | none => inScan rest

/-! ## The transform library (`SAFE_TRANSFORMS` in `shared.ts`) -/

/-- The `normalizeFractions` replacement chain inside `toCentimeters`
(unicode vulgar fractions, the ASCII double tick `''`, and prime marks). -/
def normalizeFractionsCm (s : String) : String :=
  let r := fun (s pat rep : String) => replaceStr s pat rep
  r (r (r (r (r (r (r (r (r (r (r (r s
    "½" ".5") "¼" ".25") "¾" ".75") "⅓" ".3333") "⅔" ".6667") "⅛" ".125")
    "⅜" ".375") "⅝" ".625") "⅞" ".875") "''" "\"") "″" "\"") "′" "'"

def twoFiftyFourHundredths : Dec := Dec.mk' 254 2

/-- `SAFE_TRANSFORMS.toCentimeters`. -/
def toCentimeters (v : Val) : Val :=
  if v.looseNull || v = vStr "" then vNull
  else
    let raw := jsTrim (lowerStr (v.jsToString))
    let s := normalizeFractionsCm raw
    match cmScan s.data with
    | some q => vNum (Dec.ofInt q.roundJs)
    | none =>
      match ftInScan s.data with
      | some (ft, inch) => vNum (Dec.ofInt (((ft.mul (Dec.ofNat 12)).add inch).mul twoFiftyFourHundredths).roundJs)
      | none =>
        match inScan s.data with
        | some q => vNum (Dec.ofInt (q.mul twoFiftyFourHundredths).roundJs)
        | none =>
          match jsNumberOfStripped (stripNonNumDotMinus s) with
          | some q => vNum (Dec.ofInt q.roundJs)
          | none => vNull

/-- `SAFE_TRANSFORMS.parseNumber`. -/
def parseNumber (v : Val) : Val :=
  if v.looseNull || v = vStr "" then vNull
  else
    match jsNumberOfStripped (stripNonNumDotMinus (v.jsToString)) with
    | some q => vNum q
    | none => vNull

/-- `SAFE_TRANSFORMS.trim`. -/
def trimTransform (v : Val) : Val :=
  match v with
  | vStr s => vStr (jsTrim s)
  | _ => v

/-- `SAFE_TRANSFORMS.lowercase`. -/
def lowercaseTransform (v : Val) : Val :=
  match v with
  | vStr s => vStr (lowerStr (jsTrim s))
  | _ => v

/-- `SAFE_TRANSFORMS.uppercase`. -/
def uppercaseTransform (v : Val) : Val :=
  match v with
  | vStr s => vStr (upperStr (jsTrim s))
  | _ => v

/-- `SAFE_TRANSFORMS.normalizeGender`. -/
def normalizeGender (v : Val) : Val :=
  let s := jsTrim (lowerStr ((v.jsOr (vStr "")).jsToString))
  if s = "male" || s = "m" || s = "man" then vStr "male"
  else if s = "female" || s = "f" || s = "woman" then vStr "female"
  else if s = "transgender" || s = "trans" then vStr "transgender"
  else if s = "non-binary" || s = "nonbinary" || s = "nb" then vStr "non-binary"
  else if s = "transman" then vStr "transman"
  else if s = "transwoman" then vStr "transwoman"
  else vNull

/-- Collapse each maximal whitespace run to a single underscore
(`replace(/\s+/g, '_')`). -/
def collapseWsAux : List Char → Bool → List Char
  | [], _ => []
  | c :: t, inRun =>
    if isJsWs c then
      if inRun then collapseWsAux t true else '_' :: collapseWsAux t true
    else c :: collapseWsAux t false

def collapseWsToUnderscore (s : String) : String := String.mk (collapseWsAux s.data false)

/-- The `normalize` helper of `enumSanitize`: lowercase, trim, whitespace
runs to underscores, strip everything but `[a-z0-9_]`. -/
def normTok (s : String) : String :=
  String.mk ((collapseWsToUnderscore (jsTrim (lowerStr s))).data.filter
    (fun c => isAsciiLowerAlnum c || c = '_'))

def stripUnderscores (s : String) : String :=
  String.mk (s.data.filter (fun c => c ≠ '_'))

/-- JavaScript `Map.prototype.set`: replace the value of an existing key in
place, else append. -/
def mapSet (m : List (String × String)) (k v : String) : List (String × String) :=
  match m with
  | [] => [(k, v)]
  | (k', v') :: t => if k' = k then (k, v) :: t else (k', v') :: mapSet t k v

def mapGet (m : List (String × String)) (k : String) : Option String :=
  match m with
  | [] => none
  | (k', v') :: t => if k' = k then some v' else mapGet t k

/-- Splitting a comma-separated choices string and trimming each piece
(`choicesCsv.split(',').map(s => s.trim())`). -/
def splitCsvTrim (s : String) : List String := (splitOnChar ',' s).map jsTrim

/-- The per-choice variant registration of `enumSanitize`. -/
def registerChoice (m : List (String × String)) (choice : String) : List (String × String) :=
  let c := normTok choice
  let m := mapSet m c c
  let m := mapSet m (stripUnderscores c) c
  let m :=
    if strIncludes c "blonde" then
      let b := replaceStr c "blonde" "blond"
      mapSet (mapSet m b c) (stripUnderscores b) c
    else m
  let m :=
    if strIncludes c "blond" then
      let b := replaceStr c "blond" "blonde"
      mapSet (mapSet m b c) (stripUnderscores b) c
    else m
  let m :=
    if strIncludes c "gray" then
      let g := replaceStr c "gray" "grey"
      mapSet (mapSet m g c) (stripUnderscores g) c
    else m
  if strIncludes c "grey" then
    let g := replaceStr c "grey" "gray"
    mapSet (mapSet m g c) (stripUnderscores g) c
  else m

/-- `SAFE_TRANSFORMS.enumSanitize(choicesCsv)(v)`. -/
def enumSanitize (choicesCsv : String) (v : Val) : Val :=
  if v.looseNull then vNull
  else
    let choices := splitCsvTrim choicesCsv
    let normalizedInput := normTok (v.jsToString)
    let table := choices.foldl registerChoice []
    match mapGet table normalizedInput with
    | some c => vStr c
    | none =>
      match mapGet table (stripUnderscores normalizedInput) with
      | some c => vStr c
      | none => vNull

/-! ## Shoe-size parsing (`parseUkShoeBounds`, `parseShoeToUkBounds`) -/

/-- The `normalizeFractions` helper local to `parseUkShoeBounds`, and
`normalizeFractionsGeneric` (they perform the same three replacements). -/
def normalizeFractionsGeneric (s : String) : String :=
  replaceStr (replaceStr (replaceStr s "½" ".5") "¼" ".25") "¾" ".75"

/-- Try the alternatives of a regex alternation such as `(?:eu|eur)` in
order at the current position; for each alternative that is a literal
prefix, attempt the continuation, backtracking to the next alternative on
failure. -/
def tryAlts {α : Type} (alts : List String) (l : List Char) (rest : List Char → Option α) :
    Option α :=
  match alts with
  | [] => none
  | a :: t =>
    match (if a.data.isPrefixOf l then rest (l.drop a.data.length) else none) with
    | some r => some r
    | none => tryAlts t l rest

/-- The range-dash character class (hyphen, slash, en dash). -/
def isDashCh (c : Char) : Bool := c = '-' || c = '/' || c = '–'

/-- Match unit, whitespace, number, dash-class, number at the current
position (regex `re1` of `collectUnitValues`). -/
def re1At (alts : List String) (l : List Char) : Option (List Dec × List Char) :=
  tryAlts alts l (fun r0 =>
    match numThen (r0.dropWhile isJsWs) with
    | some (n1, r2) =>
      match r2.dropWhile isJsWs with
      | d :: r4 =>
        if isDashCh d then
          match numThen (r4.dropWhile isJsWs) with
          | some (n2, r6) => some ([n1, n2], r6)
          | none => none
        else none
      | [] => none
    | none => none)

/-- Match number, dash-class, number, then unit at the current position
(regex `re2`). -/
def re2At (alts : List String) (l : List Char) : Option (List Dec × List Char) :=
  match numThen l with
  | some (n1, r1) =>
    match r1.dropWhile isJsWs with
    | d :: r2 =>
      if isDashCh d then
        match numThen (r2.dropWhile isJsWs) with
        | some (n2, r3) => tryAlts alts (r3.dropWhile isJsWs) (fun r4 => some ([n1, n2], r4))
        | none => none
      else none
    | [] => none
  | none => none

/-- Match `${u}\s*(N)` at the current position (regex `re3`). -/
def re3At (alts : List String) (l : List Char) : Option (List Dec × List Char) :=
  tryAlts alts l (fun r0 =>
    match numThen (r0.dropWhile isJsWs) with
    | some (n, r) => some ([n], r)
    | none => none)

/-- Match `(N)\s*${u}` at the current position (regex `re4`). -/
def re4At (alts : List String) (l : List Char) : Option (List Dec × List Char) :=
  match numThen l with
  | some (n, r1) => tryAlts alts (r1.dropWhile isJsWs) (fun r2 => some ([n], r2))
  | none => none

/-- Matching the bare-number regex `([0-9]+(?:\.[0-9]+)?)` at the current
position (used by `matchAll` for unit-less values). -/
def bareNumAt (l : List Char) : Option (List Dec × List Char) :=
  match numThen l with
  | some (n, r) => some ([n], r)
  | none => none

/-- Repeated `exec` of a global regex: find the leftmost match, collect its
captures, and continue after the matched text.  The fuel argument (the
string length) decreases structurally; every match of the patterns used
here consumes at least one character. -/
def globalScanAux (matchAt : List Char → Option (List Dec × List Char)) :
    Nat → List Char → List Dec
  | 0, _ => []
  | _ + 1, [] => []
  | fuel + 1, l@(_ :: t) =>
    match matchAt l with
    | some (cs, rest) => cs ++ globalScanAux matchAt fuel rest
    | none => globalScanAux matchAt fuel t

def globalScan (matchAt : List Char → Option (List Dec × List Char)) (l : List Char) :
    List Dec :=
  globalScanAux matchAt l.length l

/-- `collectUnitValues` inside `parseShoeToUkBounds`: run the four
unit-anchored regexes over the whole string and concatenate all captured
numbers in order. -/
def collectUnitValues (alts : List String) (raw : List Char) : List Dec :=
  globalScan (re1At alts) raw ++ globalScan (re2At alts) raw ++
    globalScan (re3At alts) raw ++ globalScan (re4At alts) raw

/-- Minimum of a list of numbers (`Math.min(...nums)`; only applied to
non-empty lists in the source). -/
def minList : List Dec → Dec
  | [] => Dec.ofNat 0
  | x :: t => t.foldl Dec.min' x

/-- Maximum of a list of numbers (`Math.max(...nums)`). -/
def maxList : List Dec → Dec
  | [] => Dec.ofNat 0
  | x :: t => t.foldl Dec.max' x

/-- The shoe-size unit tag. -/
inductive ShoeUnit | uk | eu | us

/-- The `toUk` conversion inside `parseShoeToUkBounds`: UK values verbatim;
EU values offset by −33 (female), −34 (male), −33.5 otherwise; US values
offset by −2 (female), −1 (male), −1.5 otherwise. -/
def toUk (gender : String) (unit : ShoeUnit) (n : Dec) : Dec :=
  let g := lowerStr gender
  match unit with
  | .uk => n
  | .eu =>
    if g = "female" || g = "woman" then n.sub (Dec.ofNat 33)
    else if g = "male" || g = "man" then n.sub (Dec.ofNat 34)
    else n.sub (Dec.mk' 335 1)
  | .us =>
    if g = "female" || g = "woman" then n.sub (Dec.ofNat 2)
    else if g = "male" || g = "man" then n.sub (Dec.ofNat 1)
    else n.sub (Dec.mk' 15 1)

/-- The normalized input string of `parseShoeToUkBounds`. -/
def shoeRaw (value : Val) : String :=
  normalizeFractionsGeneric (jsTrim (lowerStr (value.jsToString)))

/-- The UK/EU/US-marked number lists extracted by `parseShoeToUkBounds`. -/
def ukVals (raw : List Char) : List Dec := collectUnitValues ["uk"] raw
def euVals (raw : List Char) : List Dec := collectUnitValues ["eu", "eur"] raw
def usVals (raw : List Char) : List Dec := collectUnitValues ["us", "usa"] raw

/-- The converted-to-UK value set of `parseShoeToUkBounds` (explicit UK
values verbatim; else EU, else US, else bare numbers interpreted per the
unit hint). -/
def convertedUk (raw : List Char) (gender unitHint : String) : List Dec :=
  if ukVals raw ≠ [] then ukVals raw
  else if euVals raw ≠ [] then (euVals raw).map (toUk gender .eu)
  else if usVals raw ≠ [] then (usVals raw).map (toUk gender .us)
  else
    let bare := globalScan bareNumAt raw
    if bare ≠ [] then
      if unitHint = "eu" then bare.map (toUk gender .eu)
      else if unitHint = "us" then bare.map (toUk gender .us)
      else bare
    else []

/-- `parseShoeToUkBounds(value, gender, unitHint)`. -/
def parseShoeToUkBounds (value : Val) (gender : String) (unitHint : String) :
    Option (Dec × Dec) :=
  if value.looseNull then none
  else
    let raw := shoeRaw value
    if raw = "" then none
    else
      let conv := convertedUk raw.data gender unitHint
      if conv = [] then none else some (minList conv, maxList conv)

/-- First index of a substring (`String.prototype.indexOf`), by scan. -/
def indexOfSubAux (pat : List Char) : List Char → Nat → Option Nat
  | [], i => if pat.isEmpty then some i else none
  | s@(_ :: t), i => if pat.isPrefixOf s then some i else indexOfSubAux pat t (i + 1)

def indexOfSub (s pat : List Char) : Option Nat := indexOfSubAux pat s 0

/-- `parseUkShoeBounds` (the back-compat transform that only reads
explicitly UK-marked values). -/
def parseUkShoeBounds (input : Val) : Option (Dec × Dec) :=
  if input.looseNull then none
  else
    let raw := jsTrim (lowerStr (normalizeFractionsGeneric (input.jsToString)))
    if raw = "" then none
    else
      match indexOfSub raw.data "uk".data with
      | none => none
      | some ukIndex =>
        let tail := raw.data.drop ukIndex
        let nums := globalScan bareNumAt tail
        if nums = [] then none else some (minList nums, maxList nums)

/-- `SAFE_TRANSFORMS.parseUkShoeMin`. -/
def parseUkShoeMin (v : Val) : Val :=
  match parseUkShoeBounds v with
  | some r => vNum r.1
  | none => vNull

/-- `SAFE_TRANSFORMS.parseUkShoeMax`. -/
def parseUkShoeMax (v : Val) : Val :=
  match parseUkShoeBounds v with
  | some r => vNum r.2
  | none => vNull

/-! ## `applyTransform` -/

/-- Prefix test on strings by character lists (kernel-evaluable
`String.prototype.startsWith`). -/
def strStarts (s pat : String) : Bool := pat.data.isPrefixOf s.data

def strDrop (s : String) (n : Nat) : String := String.mk (s.data.drop n)

/-- Lookup in the `SAFE_TRANSFORMS` record.  The `enumSanitize` entry is
curried in the source; applying it through this generic dispatch hands the
value to the outer function and yields the inner closure, modelled as
`vFun`. -/
def safeTransform : String → Option (Val → Val)
  | "trim" => some trimTransform
  | "lowercase" => some lowercaseTransform
  | "uppercase" => some uppercaseTransform
  | "parseNumber" => some parseNumber
  | "toCentimeters" => some toCentimeters
  | "normalizeGender" => some normalizeGender
  | "enumSanitize" => some (fun v => vFun v)
  | "parseUkShoeMin" => some parseUkShoeMin
  | "parseUkShoeMax" => some parseUkShoeMax
  | _ => none

/-- `applyTransform(value, transform)` from `shared.ts` (second revision:
with the parametrized `toUkShoeMin`/`toUkShoeMax` dispatch). -/
def applyTransform (value : Val) (transform : Option String) : Val :=
  match transform with
  | none => value
  | some t =>
    if strStarts t "enum:" then enumSanitize (strDrop t 5) value
    else if strStarts t "toUkShoeMin" then
      let parts := splitOnChar ':' t
      let gender := (parts.get? 1).getD ""
      let hint := (parts.get? 2).getD ""
      match parseShoeToUkBounds value gender hint with
      | some r => vNum r.1
      | none => vNull
    else if strStarts t "toUkShoeMax" then
      let parts := splitOnChar ':' t
      let gender := (parts.get? 1).getD ""
      let hint := (parts.get? 2).getD ""
      match parseShoeToUkBounds value gender hint with
      | some r => vNum r.2
      | none => vNull
    else
      match safeTransform t with
      | some f => f value
      | none => value

/-! ## The target schema (`MODELS_FIELDS`, second revision of `shared.ts`) -/

structure FieldMeta where
  ftype : String
  values : List String

def boardCategoryValues : List String :=
  ["image", "mainboard", "a_new_face", "development", "non_binary_aka_x_division", "direct",
   "youth", "classic", "timeless", "curve", "teen", "commercial", "preview", "verve",
   "big_and_tall", "a_family", "couples", "petite", "lifestyle", "fit", "runway",
   "streetcast", "elite", "premier"]

def hairColourValues : List String :=
  ["platinum_blonde", "ash_blonde", "sandy_blonde", "strawberry_blonde", "honey_blonde",
   "black", "grey", "yellow", "green", "blue", "purple", "lavender", "emerald_green",
   "rose_gold", "dark_brown", "medium_brown", "light_brown", "chestnut_brown",
   "golden_brown", "ash_brown", "reddish_brown", "mahogany_brown", "blonde",
   "dirty_blonde", "light_blonde", "medium_blonde", "dark_blonde", "red", "copper_red",
   "ginger_red", "auburn", "deep_red", "strawberry_red", "white", "silver_gray",
   "salt_and_pepper", "steel_gray", "orange", "purple", "lavender", "lilac", "magenta",
   "electric_blue", "turquoise", "teal", "aqua", "sky_blue", "mint_green", "neon_green",
   "pastel_pink", "flamingo_pink", "hot_pink", "burgundy", "wine_red", "blood_red",
   "platinum_silver", "gunmetal_gray", "chestnut"]

def eyeColourValues : List String :=
  ["brown", "blue", "green", "hazel", "gray", "gray_green", "blue_green", "green_hazel",
   "dark_brown", "light_brown", "blue_grey", "black", "grey_green"]

def sexualityValues : List String := ["gay", "bisexual", "pansexual", "asexual"]

def genderValues : List String :=
  ["male", "female", "transgender", "non-binary", "transman", "transwoman"]

def pronounsValues : List String :=
  ["they_them", "he_him_his", "she_her_hers", "she_they", "she_he"]

def bodyTypeValues : List String := ["petite", "curve", "plus_size", "athletic", "muscular"]

/-- `MODELS_FIELDS[column]` (second revision, the one imported by the
preview and upsert routes the claims reference). -/
def MODELS_FIELDS (column : String) : Option FieldMeta :=
  match column with
  | "model_name" => some ⟨"text", []⟩
  | "profile_url" => some ⟨"url", []⟩
  | "min_estimated_age" => some ⟨"numeric", []⟩
  | "max_estimated_age" => some ⟨"numeric", []⟩
  | "height" => some ⟨"numeric", []⟩
  | "dress_size" => some ⟨"numeric", []⟩
  | "bra_size" => some ⟨"numeric", []⟩
  | "bikini_bottom_size" => some ⟨"numeric", []⟩
  | "chest_bust" => some ⟨"numeric", []⟩
  | "waist" => some ⟨"numeric", []⟩
  | "hips" => some ⟨"numeric", []⟩
  | "jeans_size" => some ⟨"numeric", []⟩
  | "shoe_size" => some ⟨"numeric", []⟩
  | "instagram_account" => some ⟨"url", []⟩
  | "model_board_category" => some ⟨"enum", boardCategoryValues⟩
  | "hair_colour" => some ⟨"enum", hairColourValues⟩
  | "eye_colour" => some ⟨"enum", eyeColourValues⟩
  | "sexuality" => some ⟨"enum", sexualityValues⟩
  | "gender" => some ⟨"enum", genderValues⟩
  | "pronouns" => some ⟨"enum", pronounsValues⟩
  | "body_type" => some ⟨"array", bodyTypeValues⟩
  | "hobby_interest_talent" => some ⟨"text", []⟩
  | "location" => some ⟨"text", []⟩
  | "models_dot_com_profile" => some ⟨"text", []⟩
  | "mdc_achievements" => some ⟨"text", []⟩
  | "data_source" => some ⟨"text", []⟩
  | _ => none

/-- `values.join(',')`. -/
def joinComma : List String → String
  | [] => ""
  | [x] => x
  | x :: t => x ++ "," ++ joinComma t

/-! ## Row lookup, URL extraction, title casing (`shared.ts`) -/

/-- One parsed CSV row: header-keyed string cells (the `papaparse`
header-mode output that `applyMappingToRow` receives). -/
abbrev Row := List (String × String)

def rowGet (row : Row) (k : String) : Option String :=
  match row with
  | [] => none
  | (k', v) :: t => if k' = k then some v else rowGet t k

/-- Collapse each maximal run of characters satisfying `p` to a single
`repl` character. -/
def collapseRunsAux (p : Char → Bool) (repl : Char) : List Char → Bool → List Char
  | [], _ => []
  | c :: t, inRun =>
    if p c then
      if inRun then collapseRunsAux p repl t true else repl :: collapseRunsAux p repl t true
    else c :: collapseRunsAux p repl t false

def collapseRuns (p : Char → Bool) (repl : Char) (l : List Char) : List Char :=
  collapseRunsAux p repl l false

/-- `normalizeKey`: lowercase, trim, whitespace runs to `_`, hyphen runs
to `_`. -/
def normalizeKey (k : String) : String :=
  String.mk (collapseRuns (fun c => c = '-') '_'
    (collapseRuns isJsWs '_' (jsTrim (lowerStr k)).data))

/-- A `from` specification: a single source column or an ordered list. -/
inductive FromSpec where
  | fstr (s : String) : FromSpec
  | farr (l : List String) : FromSpec
  deriving DecidableEq

def FromSpec.candidates : FromSpec → List String
  | .fstr s => [s]
  | .farr l => l

def FromSpec.toVal : Option FromSpec → Val
  | none => vUndef
  | some (.fstr s) => vStr s
  | some (.farr l) => vArr (l.map vStr)

/-- The normalized-key index `Map(normalizeKey(k) → k)` built over the row
keys; later keys overwrite earlier ones with the same normalized form. -/
def normalizedKeyMap (row : Row) : List (String × String) :=
  row.foldl (fun m kv => mapSet m (normalizeKey kv.1) kv.1) []

/-- The per-candidate body of `getSourceValueWithKey`: exact key match
first, then normalized match, each subject to the non-empty check. -/
def candidateLookup (row : Row) (cand : String) : Option (String × String) :=
  match rowGet row cand with
  | some v => if jsTrim v ≠ "" then some (v, cand) else candidateLookupNorm row cand
  | none => candidateLookupNorm row cand
where
  candidateLookupNorm (row : Row) (cand : String) : Option (String × String) :=
    match mapGet (normalizedKeyMap row) (normalizeKey cand) with
    | some actual =>
      match rowGet row actual with
      | some v => if jsTrim v ≠ "" then some (v, actual) else none
      | none => none
    | none => none

/-- `getSourceValueWithKey(row, fromSpec)`: `some (value, keyUsed)` or the
undefined outcome. -/
def getSourceValueWithKey (row : Row) (fromSpec : Option FromSpec) :
    Option (String × String) :=
  match fromSpec with
  | none => none
  | some fs => firstCandidate row fs.candidates
where
  firstCandidate (row : Row) : List String → Option (String × String)
    | [] => none
    | cand :: t =>
      match candidateLookup row cand with
      | some r => some r
      | none => firstCandidate row t

/-- `getSourceValue(row, fromSpec)`. -/
def getSourceValue (row : Row) (fromSpec : Option FromSpec) : Option String :=
  (getSourceValueWithKey row fromSpec).map (·.1)

/-- First-occurrence deduplication (`Array.from(new Set(xs))`). -/
def dedupFirstAux : List String → List String → List String
  | [], _ => []
  | x :: t, seen => if x ∈ seen then dedupFirstAux t seen else x :: dedupFirstAux t (x :: seen)

def dedupFirst (l : List String) : List String := dedupFirstAux l []

/-- The delimiter class of `extractUrls` (`[\s,;\n\r\t]+`). -/
def isUrlDelim (c : Char) : Bool := isJsWs c || c = ',' || c = ';'

/-- Split into maximal delimiter-free tokens (split on delimiter runs with
empty pieces discarded, matching split + trim + `filter(Boolean)`). -/
def splitTokensAux (p : Char → Bool) : List Char → List Char → List String
  | [], acc => if acc = [] then [] else [String.mk acc.reverse]
  | c :: t, acc =>
    if p c then
      if acc = [] then splitTokensAux p t []
      else String.mk acc.reverse :: splitTokensAux p t []
    else splitTokensAux p t (c :: acc)

def splitTokens (p : Char → Bool) (s : String) : List String := splitTokensAux p s.data []

/-- `extractUrls(input)`: tokenize, keep `http(s)://`-prefixed tokens
(case-insensitively), deduplicate preserving order. -/
def extractUrls (input : Val) : List String :=
  if input.looseNull then []
  else
    let parts := splitTokens isUrlDelim (input.jsToString)
    let urls := parts.filter (fun p =>
      strStarts (lowerStr p) "http://" || strStarts (lowerStr p) "https://")
    dedupFirst urls

/-- Capitalize characters that start a segment (segment boundaries are the
hyphen and apostrophe characters kept by the inner `split` of
`toTitleCaseName`). -/
def capSegsAux : List Char → Bool → List Char
  | [], _ => []
  | c :: t, capNext =>
    if c = '-' || c = '\'' || c = '’' then c :: capSegsAux t true
    else (if capNext then c.toUpper else c) :: capSegsAux t false

/-- Whether a character is in the name-delimiter class `[\s\-'’]`. -/
def isNameDelim (c : Char) : Bool := isJsWs c || c = '-' || c = '\'' || c = '’'

/-- Apply the word-capitalization of `toTitleCaseName` across the string:
delimiter runs pass through, and every character at a word start or after
an in-token hyphen/apostrophe is uppercased.  (Equivalent to the source's
split-with-captures, per-part `cap`, and join.) -/
def titleCaseChars : List Char → Bool → List Char
  | [], _ => []
  | c :: t, capNext =>
    if isJsWs c then c :: titleCaseChars t true
    else if c = '-' || c = '\'' || c = '’' then c :: titleCaseChars t true
    else (if capNext then c.toUpper else c) :: titleCaseChars t false

/-- `toTitleCaseName(input)`. -/
def toTitleCaseName (input : Val) : Val :=
  if input.looseNull then vNull
  else
    let s := jsTrim (input.jsToString)
    if s = "" then vNull
    else
      let lower := lowerStr s
      let titled := String.mk (titleCaseChars lower.data true)
      vStr (jsTrim (String.mk (collapseRuns isJsWs ' ' titled.data)))

/-! ## JSON (`JSON.parse`) -/

/-- JSON insignificant whitespace. -/
def jsonWs (c : Char) : Bool := c = ' ' || c = '\t' || c = '\n' || c = '\r'

def isHexDigit (c : Char) : Bool :=
  isDigitCh c || ('a' ≤ c && c ≤ 'f') || ('A' ≤ c && c ≤ 'F')

def hexVal (c : Char) : Nat :=
  if isDigitCh c then c.toNat - '0'.toNat
  else if 'a' ≤ c && c ≤ 'f' then c.toNat - 'a'.toNat + 10
  else c.toNat - 'A'.toNat + 10

/-- JSON string body after the opening quote.  Lone surrogate escapes
(representable in JavaScript strings but not as Lean scalar values) map to
`Char.ofNat`'s default; no claim exercises them. -/
def parseJStrAux : List Char → List Char → Option (String × List Char)
  | [], _ => none
  | '"' :: rest, acc => some (String.mk acc.reverse, rest)
  | '\\' :: e :: rest, acc =>
    match e with
    | '"' => parseJStrAux rest ('"' :: acc)
    | '\\' => parseJStrAux rest ('\\' :: acc)
    | '/' => parseJStrAux rest ('/' :: acc)
    | 'b' => parseJStrAux rest ('\x08' :: acc)
    | 'f' => parseJStrAux rest ('\x0c' :: acc)
    | 'n' => parseJStrAux rest ('\n' :: acc)
    | 'r' => parseJStrAux rest ('\r' :: acc)
    | 't' => parseJStrAux rest ('\t' :: acc)
    | 'u' =>
      match rest with
      | h1 :: h2 :: h3 :: h4 :: rest' =>
        if isHexDigit h1 && isHexDigit h2 && isHexDigit h3 && isHexDigit h4 then
          let code := ((hexVal h1 * 16 + hexVal h2) * 16 + hexVal h3) * 16 + hexVal h4
          parseJStrAux rest' (Char.ofNat code :: acc)
        else none
      | _ => none
    | _ => none
  | c :: rest, acc =>
    if c.toNat < 0x20 then none else parseJStrAux rest (c :: acc)

/-- A JSON number value from its parts (sign, integer+fraction digits as a
natural, fraction length, exponent). -/
def decOfJsonParts (negSign : Bool) (mantissa : Nat) (fracLen : Nat) (e : Int) : Dec :=
  let m : Int := if negSign then -(mantissa : Int) else (mantissa : Int)
  let shift : Int := (fracLen : Int) - e
  if shift ≤ 0 then Dec.mk' (m * (10 : Int) ^ (-shift).toNat) 0
  else Dec.mk' m shift.toNat

/-- JSON number grammar at the current position:
`-? (0 | [1-9][0-9]*) ('.' [0-9]+)? ([eE] [+-]? [0-9]+)?`. -/
def parseJNum (l : List Char) : Option (Dec × List Char) :=
  let (negSign, l1) : Bool × List Char :=
    match l with
    | '-' :: t => (true, t)
    | _ => (false, l)
  let ds := l1.takeWhile isDigitCh
  let r1 := l1.dropWhile isDigitCh
  if ds = [] then none
  else if ds.length > 1 ∧ ds.headD '0' = '0' then none
  else
    let (fs, r2) : List Char × List Char :=
      match r1 with
      | '.' :: r => (r.takeWhile isDigitCh, r.dropWhile isDigitCh)
      | _ => ([], r1)
    match r1 with
    | '.' :: _ =>
      if fs = [] then none
      else parseJNumExp negSign ds fs r2
    | _ => parseJNumExp negSign ds [] r1
where
  parseJNumExp (negSign : Bool) (ds fs : List Char) (r : List Char) :
      Option (Dec × List Char) :=
    match r with
    | 'e' :: r1 => parseJNumExpTail negSign ds fs r1
    | 'E' :: r1 => parseJNumExpTail negSign ds fs r1
    | _ => some (decOfJsonParts negSign (digitsToNat (ds ++ fs)) fs.length 0, r)
  parseJNumExpTail (negSign : Bool) (ds fs : List Char) (r : List Char) :
      Option (Dec × List Char) :=
    let (eNeg, r1) : Bool × List Char :=
      match r with
      | '+' :: t => (false, t)
      | '-' :: t => (true, t)
      | _ => (false, r)
    let es := r1.takeWhile isDigitCh
    let r2 := r1.dropWhile isDigitCh
    if es = [] then none
    else
      let e : Int := if eNeg then -(digitsToNat es : Int) else (digitsToNat es : Int)
      some (decOfJsonParts negSign (digitsToNat (ds ++ fs)) fs.length e, r2)

mutual

/-- JSON value parser.  The fuel decreases on every recursive descent and
on every aggregate item; `3 * length + 8` always suffices because each
step consumes at least one input character. -/
def parseJVal : Nat → List Char → Option (Val × List Char)
  | 0, _ => none
  | fuel + 1, l =>
    let l := l.dropWhile jsonWs
    if "null".data.isPrefixOf l then some (vNull, l.drop 4)
    else if "true".data.isPrefixOf l then some (vBool true, l.drop 4)
    else if "false".data.isPrefixOf l then some (vBool false, l.drop 5)
    else
      match l with
      | '"' :: rest => (parseJStrAux rest []).map (fun r => (vStr r.1, r.2))
      | '[' :: rest =>
        let r0 := rest.dropWhile jsonWs
        (match r0 with
         | ']' :: r1 => some (vArr [], r1)
         | _ =>
           match parseJItems fuel r0 with
           | some (items, r1) => some (vArr items, r1)
           | none => none)
      | '{' :: rest =>
        let r0 := rest.dropWhile jsonWs
        (match r0 with
         | '}' :: r1 => some (vObj [], r1)
         | _ =>
           match parseJFields fuel r0 [] with
           | some (fields, r1) => some (vObj fields, r1)
           | none => none)
      | _ => (parseJNum l).map (fun r => (vNum r.1, r.2))

/-- Comma-separated array items up to the closing bracket. -/
def parseJItems : Nat → List Char → Option (List Val × List Char)
  | 0, _ => none
  | fuel + 1, l =>
    match parseJVal fuel l with
    | some (v, r) =>
      let r := r.dropWhile jsonWs
      (match r with
       | ',' :: r1 =>
         match parseJItems fuel r1 with
         | some (items, r2) => some (v :: items, r2)
         | none => none
       | ']' :: r1 => some ([v], r1)
       | _ => none)
    | none => none

/-- Comma-separated object members up to the closing brace, assembled
left to right into the accumulator so that duplicate keys overwrite in
place, as `JSON.parse` object construction does. -/
def parseJFields : Nat → List Char → List (String × Val) → Option (List (String × Val) × List Char)
  | 0, _, _ => none
  | fuel + 1, l, acc =>
    let l := l.dropWhile jsonWs
    match l with
    | '"' :: rest =>
      (match parseJStrAux rest [] with
       | some (key, r1) =>
         let r2 := r1.dropWhile jsonWs
         (match r2 with
          | ':' :: r3 =>
            (match parseJVal fuel r3 with
             | some (v, r4) =>
               let r5 := r4.dropWhile jsonWs
               (match r5 with
                | ',' :: r6 => parseJFields fuel r6 (RecordV.setF acc key v)
                | '}' :: r6 => some (RecordV.setF acc key v, r6)
                | _ => none)
             | none => none)
          | _ => none)
       | none => none)
    | _ => none

end

instance {ε α : Type} [DecidableEq ε] [DecidableEq α] : DecidableEq (Except ε α) := fun a b =>
  match a, b with
  | .ok x, .ok y =>
    match decEq x y with
    | .isTrue h => .isTrue (h ▸ rfl)
    | .isFalse h => .isFalse (fun he => h (by cases he; rfl))
  | .error x, .error y =>
    match decEq x y with
    | .isTrue h => .isTrue (h ▸ rfl)
    | .isFalse h => .isFalse (fun he => h (by cases he; rfl))
  | .ok _, .error _ => .isFalse (fun he => by cases he)
  | .error _, .ok _ => .isFalse (fun he => by cases he)

/-- `JSON.parse(s)`, as `some` value or `none` for a `SyntaxError`. -/
def jsonParse (s : String) : Option Val :=
  match parseJVal (3 * s.data.length + 8) s.data with
  | some (v, rest) => if rest.dropWhile jsonWs = [] then some v else none
  | none => none

/-! ## `extractJsonObject` (preview route) -/

/-- Where a code fence `` ``` `` optionally followed by a
case-insensitive `json` tag and a newline starts at position `p`: returns
the position right after the opening (the inner start). -/
def fenceAt (s : List Char) (p : Nat) : Option Nat :=
  let sub := s.drop p
  if "```".data.isPrefixOf sub then
    let afterTicks := sub.drop 3
    if ((afterTicks.take 4).map Char.toLower) = "json".data ∧
        (afterTicks.drop 4).headD ' ' = '\n' then some (p + 8)
    else if afterTicks.headD ' ' = '\n' then some (p + 4)
    else none
  else none

def findSubFrom (s pat : List Char) (start : Nat) : Option Nat :=
  (indexOfSub (s.drop start) pat).map (· + start)

/-- The contents captured by `/```(?:json)?\n([\s\S]*?)\n```/i`: the
leftmost position where the fence opening matches and a closing `\n```\ `
exists, with the lazy group giving the earliest close. -/
def fenceScanAux (s : List Char) : Nat → Nat → Option (List Char)
  | _, 0 => none
  | p, fuel + 1 =>
    match fenceAt s p with
    | some innerStart =>
      (match findSubFrom s "\n```".data innerStart with
       | some q => some ((s.drop innerStart).take (q - innerStart))
       | none => fenceScanAux s (p + 1) fuel)
    | none => fenceScanAux s (p + 1) fuel

def fenceInner (s : List Char) : Option (List Char) := fenceScanAux s 0 (s.length + 1)

/-- The stack-based balanced-brace candidate scan of `extractJsonObject`:
each time the depth returns to zero the candidate substring is tried with
`JSON.parse`, and the first success is returned. -/
def braceLoopAux (full : List Char) : List Char → Nat → Option Nat → Nat → Option Val
  | [], _, _, _ => none
  | c :: t, i, start, depth =>
    if c = '{' then
      braceLoopAux full t (i + 1) (some (start.getD i)) (depth + 1)
    else if c = '}' then
      let depth' := if depth > 0 then depth - 1 else depth
      if depth' = 0 ∧ start ≠ none then
        let st := start.getD 0
        let candidate := (full.drop st).take (i + 1 - st)
        match jsonParse (String.mk candidate) with
        | some v => some v
        | none => braceLoopAux full t (i + 1) none depth'
      else braceLoopAux full t (i + 1) start depth'
    else braceLoopAux full t (i + 1) start depth

def braceScanParse (trimmed : List Char) : Option Val :=
  braceLoopAux trimmed trimmed 0 none 0

/-- The error message thrown when no strategy recovers a JSON object. -/
def noJsonMsg : String := "No valid JSON object found in text"

/-- The fenced-block recovery stage: the first fenced code block's
contents, parsed as JSON. -/
def fencedParse (text : String) : Option Val :=
  match fenceInner (jsTrim text).data with
  | some inner => jsonParse (String.mk inner)
  | none => none

/-- `extractJsonObject(text)` from the preview route: direct parse, then
fenced block, then balanced-brace candidates, else an error. -/
def extractJsonObject (text : String) : Except String Val :=
  match jsonParse text with
  | some v => .ok v
  | none =>
    match fencedParse text with
    | some v => .ok v
    | none =>
      match braceScanParse (jsTrim text).data with
      | some v => .ok v
      | none => .error noJsonMsg

/-! ## Filename inference (`inferGenderFromFilename`, `inferModelBoardFromFilename`) -/

/-- `normalizeFilenameForSearch`: lowercase, collapse non-alphanumeric runs
to single underscores (the second `_+ → _` replacement of the source is a
no-op after the first and is absorbed here), and the derived token set. -/
def filenameUnderscored (name : String) : String :=
  String.mk (collapseRuns (fun c => !isAsciiLowerAlnum c) '_' (lowerStr name).data)

def filenameTokens (name : String) : List String :=
  splitTokens (fun c => c = '_') (filenameUnderscored name)

/-- `(^|_)t(_|$)` on the underscored filename. -/
def hasBoundedAux (t : List Char) : List Char → Bool → Bool
  | [], atBoundary => atBoundary && t.isEmpty
  | s@(c :: rest), atBoundary =>
    (atBoundary && t.isPrefixOf s &&
      (match s.drop t.length with
       | [] => true
       | c' :: _ => c' = '_')) ||
    hasBoundedAux t rest (c = '_')

def hasBoundedIn (underscored t : String) : Bool := hasBoundedAux t.data underscored.data true

def hasTokenIn (tokens : List String) (t : String) : Bool := tokens.contains t

def femaleHints : List String :=
  ["female", "females", "women", "womens", "woman", "womxn", "girls", "girl", "ladies", "lady"]

def maleHints : List String :=
  ["male", "males", "men", "mens", "man", "boys", "boy", "guys", "gentlemen", "gentleman", "gents"]

/-- `inferGenderFromFilename(fileName)`. -/
def inferGenderFromFilename (fileName : String) : Option String :=
  let u := filenameUnderscored fileName
  let tokens := filenameTokens fileName
  let hasToken := hasTokenIn tokens
  let hasBounded := hasBoundedIn u
  if hasToken "transman" || hasBounded "trans_man" then some "transman"
  else if hasToken "transwoman" || hasBounded "trans_woman" then some "transwoman"
  else if hasToken "transgender" || hasBounded "trans" then some "transgender"
  else if hasToken "nonbinary" || hasBounded "non_binary" || hasToken "nb" ||
      hasBounded "x_division" || hasToken "enby" then some "non-binary"
  else if femaleHints.any (fun h => hasToken h || hasBounded h) then some "female"
  else if maleHints.any (fun h => hasToken h || hasBounded h) then some "male"
  else none

def strEnds (s suf : String) : Bool := suf.data.isSuffixOf s.data

/-- First `some` produced by `f` over a list, in order. -/
def findFirstSome {α β : Type} : List α → (α → Option β) → Option β
  | [], _ => none
  | x :: t, f =>
    match f x with
    | some r => some r
    | none => findFirstSome t f

def strDropLast (s : String) : String := String.mk s.data.dropLast

/-- `expandVariants` inside `inferModelBoardFromFilename`: hyphen-to-
underscore form, plural forms, and the separator-collapsed form, in
insertion order without duplicates (a `Set`). -/
def expandVariants (t : String) : List String :=
  let u := String.mk (t.data.map (fun c => if c = '-' then '_' else c))
  let l := [u]
  let l := l ++ (if !strEnds u "s" then [u ++ "s"] else [])
  let l := l ++ (if strEnds u "y" then [strDropLast u ++ "ies"] else [])
  let l := l ++ (if strEnds u "s" || strEnds u "x" || strEnds u "ch" || strEnds u "sh"
    then [u ++ "es"] else [])
  let l := l ++ [stripUnderscores u]
  dedupFirst l

/-- The ordered candidate hint table of `inferModelBoardFromFilename`. -/
def boardCandidates : List (String × List String) :=
  [("image", ["image"]),
   ("mainboard", ["mainboard", "main_board"]),
   ("a_new_face", ["a_new_face", "new_face", "new_faces", "newface", "newfaces"]),
   ("development", ["development"]),
   ("non_binary_aka_x_division",
     ["non_binary_aka_x_division", "x_division", "non_binary", "non-binary", "nonbinary", "nb"]),
   ("direct", ["direct"]),
   ("youth", ["youth"]),
   ("classic", ["classic"]),
   ("timeless", ["timeless"]),
   ("curve", ["curve"]),
   ("teen", ["teen"]),
   ("commercial", ["commercial"]),
   ("preview", ["preview"]),
   ("verve", ["verve"]),
   ("big_and_tall", ["big_and_tall", "bigandtall", "big_tall", "big-tall"]),
   ("a_family", ["a_family", "family"]),
   ("couples", ["couples"]),
   ("petite", ["petite"]),
   ("lifestyle", ["lifestyle"]),
   ("fit", ["fit"]),
   ("runway", ["runway"]),
   ("streetcast", ["streetcast"]),
   ("elite", ["elite"]),
   ("premier", ["premier"])]

/-- `inferModelBoardFromFilename(fileName)`. -/
def inferModelBoardFromFilename (fileName : String) : Option String :=
  let u := filenameUnderscored fileName
  let tokens := filenameTokens fileName
  let bounded := hasBoundedIn u
  let has := hasTokenIn tokens
  let hasAll := fun (ts : List String) => ts.all (hasTokenIn tokens)
  if hasAll ["new", "face"] || hasAll ["new", "faces"] then some "a_new_face"
  else if hasAll ["main", "board"] then some "mainboard"
  else if hasAll ["big", "and", "tall"] then some "big_and_tall"
  else if hasAll ["x", "division"] then some "non_binary_aka_x_division"
  else if hasAll ["non", "binary"] then some "non_binary_aka_x_division"
  else if has "main" || bounded "main" then some "mainboard"
  else
    findFirstSome boardCandidates (fun c =>
      if (c.2.flatMap expandVariants).any (fun t =>
          bounded t || has t || bounded (stripUnderscores t)) then some c.1 else none)

/-! ## The Mapping document and `applyMappingToRow` -/

/-- A field specification inside a Mapping (`{ from?, transform?, default? }`). -/
structure FieldSpec where
  from? : Option FromSpec
  transform? : Option String
  default? : Option Val
  deriving DecidableEq

/-- A schema-validated Mapping document. -/
structure Mapping where
  targetTables : List String
  fieldMappings : List (String × FieldSpec)
  mediaMappings : Option (List (String × FieldSpec))
  notes : Option String
  deriving DecidableEq

/-- The system context handed to `applyMappingToRow` (`opts`). -/
structure MapOpts where
  gender : String
  modelBoard : Option String
  dataSource : String

/-- `CM_COLUMNS` (second revision). -/
def CM_COLUMNS : List String := ["height", "chest_bust", "waist", "hips"]

/-- `SHOE_TRANSFORM_BY_COLUMN`. -/
def shoeTransformByColumn (column : String) : Option String :=
  if column = "shoe_size" then some "toUkShoeMin" else none

/-- Word-bounded containment: position `p` matches when the pattern occurs
there with no word character (`[A-Za-z0-9_]`) adjacent on either side
(JavaScript `\b`-delimited alternative). -/
def hasWordBoundedAux (w : List Char) : List Char → Bool → Bool
  | [], prevIsWord =>
    (!prevIsWord && w.isEmpty)
  | s@(c :: t), prevIsWord =>
    (!prevIsWord && w.isPrefixOf s &&
      (match s.drop w.length with
       | [] => true
       | c' :: _ => !isWordCh c')) ||
    hasWordBoundedAux w t (isWordCh c)

def hasWordBounded (s w : String) : Bool := hasWordBoundedAux w.data s.data false

/-- The source-column unit-hint inference inside `applyMappingToRow`
(`/\beu\b|\beur\b|european/` etc. over the normalized source key). -/
def unitHintOfKey (sourceKey : Option String) : String :=
  match sourceKey with
  | none => ""
  | some k =>
    let kn := normalizeKey k
    if hasWordBounded kn "eu" || hasWordBounded kn "eur" || strIncludes kn "european" then "eu"
    else if hasWordBounded kn "us" || hasWordBounded kn "usa" || strIncludes kn "american" then "us"
    else if hasWordBounded kn "uk" || strIncludes kn "british" ||
        hasWordBounded kn "uk_size" || hasWordBounded kn "uk_sizes" then "uk"
    else ""

/-- The `table` and `column` parts of a `"table.column"` target
(`target.split('.')` destructured; a missing column behaves as the
property name `"undefined"`, exactly as the JavaScript index would). -/
def splitTarget (target : String) : String × String :=
  let parts := splitOnChar '.' target
  ((parts.get? 0).getD "undefined", (parts.get? 1).getD "undefined")

/-- The transform actually applied for one `fieldMappings` entry of the
`models` table: the forced `toCentimeters` for length columns, the
gender/unit-aware shoe default, the enum default, or the requested
transform. -/
def effectiveTransform (opts : MapOpts) (table column : String)
    (sourceKey : Option String) (transformRequested : Option String) : Option String :=
  let t0 := if CM_COLUMNS.contains column then some "toCentimeters" else transformRequested
  let t1 :=
    if table = "models" then
      match shoeTransformByColumn column with
      | some shoeBase =>
        if (transformRequested.getD "") = "" ∨ transformRequested = some "parseNumber" then
          let genderParam := lowerStr opts.gender
          let unitHint := unitHintOfKey sourceKey
          if genderParam ≠ "" ∨ unitHint ≠ "" then
            some (shoeBase ++ ":" ++ genderParam ++ ":" ++ unitHint)
          else some shoeBase
        else t0
      | none => t0
    else t0
  if ¬ CM_COLUMNS.contains column ∧ table = "models" then
    match MODELS_FIELDS column with
    | some meta =>
      if meta.ftype = "enum" then
        if ¬ strStarts (transformRequested.getD "") "enum:" then
          some ("enum:" ++ joinComma meta.values)
        else t1
      else t1
    | none => t1
  else t1

/-- The looked-up source value as a runtime value (`undefined` when no
candidate matched). -/
def sourceValOf (row : Row) (fs : Option FromSpec) : Val :=
  match getSourceValueWithKey row fs with
  | some (v, _) => vStr v
  | none => vUndef

/-- The final value for one entry: the transformed source value, else the
spec default, else null (`transformed ?? spec.default ?? null`). -/
def finalValOf (transformed : Val) (default? : Option Val) : Val :=
  transformed.nullish ((default?.getD vUndef).nullish vNull)

/-- The loop body of `applyMappingToRow` over one `fieldMappings` entry. -/
def processFieldEntry (row : Row) (opts : MapOpts) (models : RecordV)
    (target : String) (spec : FieldSpec) : RecordV :=
  let (table, column) := splitTarget target
  if column = "data_source" then models
  else
    let sourceKey : Option String := (getSourceValueWithKey row spec.from?).map (·.2)
    let transformToApply := effectiveTransform opts table column sourceKey spec.transform?
    let transformed := applyTransform (sourceValOf row spec.from?) transformToApply
    let finalVal := finalValOf transformed spec.default?
    if table = "models" then models.setF column finalVal
    else models

/-- The media-row construction of `applyMappingToRow` (supports several
links per source row; only `models_media.link` is consulted). -/
def buildMediaRows (row : Row) (mapping : Mapping) : List RecordV :=
  match mapping.mediaMappings with
  | none => []
  | some mm =>
      match lookupSpec mm "models_media.link" with
      | none => []
      | some linkSpec =>
        let candidates := match linkSpec.from? with
          | some fs => fs.candidates
          | none => []
        let foundLinks :=
          if candidates = [] then extractUrls (FromSpec.toVal linkSpec.from?)
          else candidates.flatMap (fun cand =>
            match getSourceValue row (some (.fstr cand)) with
            | some v => extractUrls (vStr v)
            | none => extractUrls vUndef)
        let uniqueLinks := (dedupFirst foundLinks).filter (· ≠ "")
        uniqueLinks.map (fun link => [("link", vStr link)])
where
  lookupSpec : List (String × FieldSpec) → String → Option FieldSpec
    | [], _ => none
    | (k, v) :: t, key => if k = key then some v else lookupSpec t key

/-! ## Mapping-shape normalization and schema validation (preview route) -/

/-- JS `delete o[k]`. -/
def delF (r : RecordV) (k : String) : RecordV := r.filter (fun kv => kv.1 ≠ k)

/-- Generic replace-or-append association update (object property write). -/
def assocSet {β : Type} : List (String × β) → String → β → List (String × β)
  | [], k, v => [(k, v)]
  | (k', v') :: t, k, v => if k' = k then (k, v) :: t else (k', v') :: assocSet t k v

def assocGet {β : Type} : List (String × β) → String → Option β
  | [], _ => none
  | (k', v') :: t, k => if k' = k then some v' else assocGet t k

/-- Index-keyed entries of an array value (`Object.entries` on an array). -/
def indexedFields (items : List Val) (i : Nat) : List (String × Val) :=
  match items with
  | [] => []
  | x :: t => (natToStr i, x) :: indexedFields t (i + 1)

/-- `coerceMappingRecord(record, allowedTable?)`: shorthand string/array
values become `{ from: value }`, object values pass through, anything else
is dropped; keys outside the allowed table are filtered out. -/
def coerceMappingRecord (record : Val) (allowedTable : Option String) : List (String × Val) :=
  let entries : List (String × Val) :=
    match record with
    | vObj f => f
    | vArr items => indexedFields items 0
    | _ => []
  entries.foldl (fun out kv =>
    let keep : Bool :=
      match allowedTable with
      | none => true
      | some tbl => (splitTarget kv.1).1 = tbl
    if !keep then out
    else if kv.2.looseNull then RecordV.setF out kv.1 (vObj [])
    else
      match kv.2 with
      | vStr _ => RecordV.setF out kv.1 (vObj [("from", kv.2)])
      | vArr _ => RecordV.setF out kv.1 (vObj [("from", kv.2)])
      | vObj _ => RecordV.setF out kv.1 kv.2
      | _ => out) []

/-- The `pushIfString` accumulator of `normalizeFromSpec`. -/
def pushIfString (acc : List String) (v : Val) : List String :=
  match v with
  | vStr s => if jsTrim s ≠ "" then acc ++ [jsTrim s] else acc
  | _ => acc

/-- The `extractFromObj` helper of `normalizeFromSpec`: collect the
plausible column-name keys from an object-shaped `from` entry. -/
def extractFromObj (acc : List String) (o : Val) : List String :=
  match o with
  | vObj f =>
    let acc := pushIfString acc (RecordV.getV f "from")
    let acc := pushIfString acc (RecordV.getV f "name")
    let acc := pushIfString acc (RecordV.getV f "column")
    pushIfString acc (RecordV.getV f "header")
  | _ => acc

/-- `normalizeFromSpec(from)`: flatten strings, arrays and proposer-quirk
objects into a trimmed string or deduplicated string array (`none` models
`undefined`). -/
def normalizeFromSpec (from? : Val) : Option Val :=
  if from?.looseNull then none
  else
    let collect : List String :=
      match from? with
      | vStr _ => pushIfString [] from?
      | vArr items =>
        items.foldl (fun acc it =>
          match it with
          | vStr _ => pushIfString acc it
          | vObj _ => extractFromObj acc it
          | vArr _ => extractFromObj acc it
          | vNull => extractFromObj acc it
          | _ => acc) []
      | vObj _ => extractFromObj [] from?
      | _ => []
    if collect = [] then none
    else if collect.length = 1 then some (vStr (collect.headD ""))
    else some (vArr ((dedupFirst collect).map vStr))

/-- The per-record `from`-normalization pass of `normalizeMappingShape`. -/
def normalizeFromOnRecord (rec : List (String × Val)) : List (String × Val) :=
  rec.map (fun kv =>
    match kv.2 with
    | vObj sf =>
      (kv.1,
        match normalizeFromSpec (RecordV.getV sf "from") with
        | some nv => vObj (RecordV.setF sf "from" nv)
        | none => vObj (delF sf "from"))
    | _ => kv)

/-- `normalizeMappingShape(obj)`. -/
def normalizeMappingShape (obj : Val) : Val :=
  match obj with
  | vObj fields => normalizeObjShape fields
  | vArr items => normalizeObjShape (indexedFields items 0)
  | v => v
where
  normalizeObjShape (fields : List (String × Val)) : Val :=
    let fm := coerceMappingRecord (RecordV.getV fields "fieldMappings") none
    let coercedMedia := coerceMappingRecord (RecordV.getV fields "mediaMappings") (some "models_media")
    let filteredMedia := coercedMedia.filter (fun kv => kv.1 = "models_media.link")
    let mm : Val := if filteredMedia ≠ [] then vObj (normalizeFromOnRecord filteredMedia) else vUndef
    let fm' := normalizeFromOnRecord fm
    vObj (RecordV.setF (RecordV.setF fields "fieldMappings" (vObj fm')) "mediaMappings" mm)

/-- One field specification under `MappingSchema`
(`{ from?: string|string[], transform?: string, default?: any }`,
unknown keys stripped). -/
def parseFieldSpec (v : Val) : Option FieldSpec :=
  match v with
  | vObj f =>
    let fr : Option (Option FromSpec) :=
      match RecordV.getV f "from" with
      | vUndef => some none
      | vStr s => some (some (.fstr s))
      | vArr items =>
        (items.mapM (fun it =>
          match it with
          | vStr s => some s
          | _ => none)).map (fun l => some (.farr l))
      | _ => none
    let tr : Option (Option String) :=
      match RecordV.getV f "transform" with
      | vUndef => some none
      | vStr s => some (some s)
      | _ => none
    match fr, tr with
    | some fr, some tr =>
      let df : Option Val :=
        match RecordV.getV f "default" with
        | vUndef => none
        | x => some x
      some ⟨fr, tr, df⟩
    | _, _ => none
  | _ => none

/-- A `z.record(z.string(), spec)` over field specifications. -/
def parseSpecRecord (v : Val) : Option (List (String × FieldSpec)) :=
  match v with
  | vObj fields => fields.mapM (fun kv => (parseFieldSpec kv.2).map (fun s => (kv.1, s)))
  | _ => none

/-- `MappingSchema.parse(v)` (`none` models the thrown `ZodError`). -/
def mappingSchemaParse (v : Val) : Option Mapping :=
  match v with
  | vObj f =>
    let tt : Option (List String) :=
      match RecordV.getV f "targetTables" with
      | vArr items =>
        (items.mapM (fun it =>
          match it with
          | vStr s => if s = "models" || s = "models_media" then some s else none
          | _ => none)).bind (fun l => if l.length ≥ 1 then some l else none)
      | _ => none
    match tt with
    | none => none
    | some tt =>
      match parseSpecRecord (RecordV.getV f "fieldMappings") with
      | none => none
      | some fm =>
        let mm : Option (Option (List (String × FieldSpec))) :=
          match RecordV.getV f "mediaMappings" with
          | vUndef => some none
          | x => (parseSpecRecord x).map some
        match mm with
        | none => none
        | some mm =>
          match RecordV.getV f "notes" with
          | vUndef => some ⟨tt, fm, mm, none⟩
          | vStr s => some ⟨tt, fm, mm, some s⟩
          | _ => none
  | _ => none

def strTake (s : String) (n : Nat) : String := String.mk (s.data.take n)

/-- The mapping-parse stage of the preview route `POST` (lines 527–535):
`extractJsonObject`, `normalizeMappingShape`, `MappingSchema.parse`; any
failure is surfaced with the first 600 characters of the raw proposer
text, never replaced by a default mapping. -/
def parseMappingFromText (raw : String) : Except (String × String) Mapping :=
  match extractJsonObject raw with
  | .error e => .error (e, strTake raw 600)
  | .ok obj =>
    match mappingSchemaParse (normalizeMappingShape obj) with
    | some m => .ok m
    | none => .error ("ZodError", strTake raw 600)

/-- `MappingSchema.parse(JSON.parse(s))` (the strict parse used by the
upsert route, with no shape normalization). -/
def parseMappingStrict (s : String) : Option Mapping :=
  (jsonParse s).bind mappingSchemaParse

/-- The result of `applyMappingToRow` (second revision: media fan-out). -/
structure MappedRow where
  models : RecordV
  models_media : List RecordV

/-- The "Force reserved/system fields" tail of `applyMappingToRow`:
`models.gender = opts.gender || null`, the conditional board write, and
`models.data_source = opts.dataSource`. -/
def forceSystemFields (opts : MapOpts) (models : RecordV) : RecordV :=
  let models := models.setF "gender" (if opts.gender ≠ "" then vStr opts.gender else vNull)
  let models :=
    if (opts.modelBoard.getD "") ≠ "" then
      models.setF "model_board_category" (vStr ((opts.modelBoard).getD ""))
    else models
  models.setF "data_source" (vStr opts.dataSource)

/-- The post-processing step: title-case `model_name` when it is neither
null nor undefined. -/
def titleCasePost (models : RecordV) : RecordV :=
  match models.getF "model_name" with
  | some v => if v.looseNull then models else models.setF "model_name" (toTitleCaseName v)
  | none => models

/-- `applyMappingToRow(row, mapping, opts)` from `shared.ts` (second
revision): mapping-driven assignment, media fan-out, forced system
fields, and title-cased `model_name`. -/
def applyMappingToRow (row : Row) (mapping : Mapping) (opts : MapOpts) : MappedRow :=
  let models := mapping.fieldMappings.foldl
    (fun m kv => processFieldEntry row opts m kv.1 kv.2) []
  let mediaRows := buildMediaRows row mapping
  ⟨titleCasePost (forceSystemFields opts models), mediaRows⟩

/-! ## `dataSourceExists` (shared.ts) -/

/-- The Supabase configuration read from the environment; the empty string
models an unset variable (both are falsy in the source's check). -/
structure SupabaseEnv where
  url : String
  key : String

/-- The outcome of the head-count query
`from('models').select('id', count).eq('data_source', ds)`. -/
inductive CountResult where
  | err (msg : String) : CountResult
  | ok (count : Option Nat) : CountResult

/-- `dataSourceExists(dataSource)`: false on missing configuration, false
on a query error, else whether the count is positive. -/
def dataSourceExists (env : SupabaseEnv) (query : String → CountResult) (ds : String) : Bool :=
  if env.url = "" || env.key = "" then false
  else
    match query ds with
    | .err _ => false
    | .ok c => c.getD 0 > 0

/-! ## The preview (proposal) endpoint (`preview/route.ts`, second revision) -/

/-- An uploaded CSV file: its client name and its parsed rows. -/
structure CsvFile where
  name : String
  rows : List Row

/-- The eventual outcome of the (retried) proposer call: an upstream
error, a non-text first content block, or the raw response text.  The
request payload (prompt, sample, prior mapping, feedback) only feeds this
external collaborator and does not influence the embedded control flow. -/
inductive ProposerOutcome where
  | err (status : Nat) (overloaded : Bool) : ProposerOutcome
  | invalidContent : ProposerOutcome
  | okText (text : String) : ProposerOutcome

/-- The responses of the preview `POST`, by status and payload. -/
inductive PreviewResp where
  | misconfig : PreviewResp
  | conflict (ds : String) : PreviewResp
  | missingFile : PreviewResp
  | genderUninferable : PreviewResp
  | upstreamAuthError : PreviewResp
  | upstreamOverloaded : PreviewResp
  | upstreamError : PreviewResp
  | invalidContent : PreviewResp
  | parseFailure (error snippet : String) : PreviewResp
  | ok (mapping : Mapping) (preview : List RecordV) (gender : String)
      (board : Option String) (ds : String) : PreviewResp
  deriving DecidableEq

/-- `(file as any)?.name || 'upload.csv'`: the upload's source identifier. -/
def requestDataSource (file : Option CsvFile) : String :=
  match file with
  | some f => if f.name ≠ "" then f.name else "upload.csv"
  | none => "upload.csv"

/-- The preview route `POST` (second revision): API-key check, data-source
conflict guard, gender inference with client override, proposer call,
mapping extraction/normalization/validation, and the five-row preview of
`applyMappingToRow` projections. -/
def previewPOST (anthropicKey : String) (supa : SupabaseEnv) (query : String → CountResult)
    (file : Option CsvFile) (genderField : String) (proposer : ProposerOutcome) :
    PreviewResp :=
  if anthropicKey = "" then .misconfig
  else
    let ds := requestDataSource file
    if dataSourceExists supa query ds then .conflict ds
    else
      let providedGender :=
        if genderValues.contains (jsTrim genderField) then some (jsTrim genderField) else none
      let inferredGender :=
        match providedGender with
        | some g => some g
        | none => inferGenderFromFilename ds
      match file with
      | none => .missingFile
      | some f =>
        match inferredGender with
        | none => .genderUninferable
        | some g =>
          let board := inferModelBoardFromFilename ds
          match proposer with
          | .err status overloaded =>
            if status = 401 then .upstreamAuthError
            else if status = 529 || overloaded then .upstreamOverloaded
            else .upstreamError
          | .invalidContent => .invalidContent
          | .okText raw =>
            match parseMappingFromText raw with
            | .error e => .parseFailure e.1 e.2
            | .ok mapping =>
              let previewRows := (f.rows.take 5).map
                (fun row => (applyMappingToRow row mapping ⟨g, board, ds⟩).models)
              .ok mapping previewRows g board ds

/-! ## The upsert (confirm) endpoint (`upsert/route.ts`, second revision) -/

/-- `ensureShoeMapping(mapping, headers)`: headers recognized as shoe
columns are merged into `models.shoe_size`'s `from` candidates with the
generic `parseNumber` transform (which `applyMappingToRow` upgrades to the
gender/unit-aware shoe transform). -/
def ensureShoeMapping (mapping : Mapping) (headers : List String) : Mapping :=
  let possibleKeys := ["shoe", "shoes", "shoe_size", "shoe_size_uk", "shoe_size_eu",
    "shoe_size_us", "shoe size"]
  let shoeCandidates := headers.filter (fun h => possibleKeys.contains (normalizeKey h))
  if shoeCandidates = [] then mapping
  else
    let existing := (assocGet mapping.fieldMappings "models.shoe_size").getD ⟨none, none, none⟩
    let existingFrom : List String :=
      match existing.from? with
      | some (.farr l) => l
      | some (.fstr s) => if s ≠ "" then [s] else []
      | none => []
    let merged := dedupFirst ((existingFrom ++ shoeCandidates).filter (· ≠ ""))
    { mapping with
      fieldMappings := assocSet mapping.fieldMappings "models.shoe_size"
        ⟨some (.farr merged), some "parseNumber", none⟩
      targetTables :=
        if mapping.targetTables.contains "models" then mapping.targetTables
        else mapping.targetTables ++ ["models"] }

/-- At least four consecutive decimal digits (`/\d{4,}/.test`). -/
def digitRunAux : List Char → Nat → Bool
  | [], run => run ≥ 4
  | c :: t, run =>
    if isDigitCh c then (run + 1 ≥ 4) || digitRunAux t (run + 1)
    else digitRunAux t 0

def hasDigitRun4 (s : String) : Bool := digitRunAux s.data 0

def isSchemeCh (c : Char) : Bool :=
  ('a' ≤ c && c ≤ 'z') || ('A' ≤ c && c ≤ 'Z') || isDigitCh c || c = '+' || c = '-' || c = '.'

def isAlphaCh (c : Char) : Bool := ('a' ≤ c && c ≤ 'z') || ('A' ≤ c && c ≤ 'Z')

/-- The pathname and search components of a parsed URL. -/
structure UrlParts where
  pathname : String
  search : String
  deriving DecidableEq

/-- `new URL(link)` restricted to the link shapes reachable here (the
`http(s)://`-prefixed tokens kept by `extractUrls`, plus opaque-path URLs
of other schemes); scheme-less strings throw, modelled as `none`.  WHATWG
percent-encoding and dot-segment normalization are not modelled: they
never change whether a four-digit run exists for these links. -/
def urlParse (link : String) : Option UrlParts :=
  let l := link.data
  let schemeChars := l.takeWhile isSchemeCh
  let afterScheme := l.dropWhile isSchemeCh
  if schemeChars = [] ∨ ¬ isAlphaCh (schemeChars.headD ' ') then none
  else
    match afterScheme with
    | ':' :: rest =>
      let scheme := String.mk (schemeChars.map Char.toLower)
      if scheme = "http" ∨ scheme = "https" then
        match rest with
        | '/' :: '/' :: r =>
          let isAuthEnd := fun (c : Char) => c = '/' || c = '?' || c = '#' || c = '\\'
          let authority := r.takeWhile (fun c => !isAuthEnd c)
          let afterAuth := r.dropWhile (fun c => !isAuthEnd c)
          if authority = [] then none
          else
            let hostPort := (splitOnCharAux '@' authority []).getLastD ""
            let portOk :=
              match splitOnChar ':' (String.mk hostPort.data) with
              | [_, port] => port.data.all isDigitCh
              | [_] => true
              | _ => false
            if !portOk ∨ hostPort = "" then none
            else
              let pathChars := (afterAuth.takeWhile (fun c => c ≠ '?' && c ≠ '#')).map
                (fun c => if c = '\\' then '/' else c)
              let pathname := if pathChars = [] then "/" else String.mk pathChars
              let afterPath := afterAuth.dropWhile (fun c => c ≠ '?' && c ≠ '#')
              some ⟨pathname, searchOf afterPath⟩
        | _ => none
      else
        let pathChars := rest.takeWhile (fun c => c ≠ '?' && c ≠ '#')
        let afterPath := rest.dropWhile (fun c => c ≠ '?' && c ≠ '#')
        some ⟨String.mk pathChars, searchOf afterPath⟩
    | _ => none
where
  searchOf (afterPath : List Char) : String :=
    match afterPath with
    | '?' :: q =>
      let query := q.takeWhile (fun c => c ≠ '#')
      if query = [] then "" else String.mk ('?' :: query)
    | _ => ""

/-- `isLikelyValidMediaLink(link)`: the link parses as a URL and its
pathname concatenated with its search string contains a four-digit run. -/
def isLikelyValidMediaLink (link : String) : Bool :=
  match urlParse link with
  | some u => hasDigitRun4 (u.pathname ++ u.search)
  | none => false

/-- The `result` payload of a successful batch item. -/
structure UpsertOutcome where
  model_id : Option Nat
  twinGroupId : Option String
  twinCandidates : Option (List Nat)

/-- One per-item entry of the batch backend's `results` array. -/
inductive ItemResult where
  | nullish : ItemResult
  | success (res : Option UpsertOutcome) : ItemResult
  | error (msg : String) : ItemResult
  | other : ItemResult

/-- The outcome of one `fetch` to `batch_upsert_models`: `fail` covers a
network exception and a non-OK HTTP status (both mark the whole chunk
failed); `ok` carries the parsed `results` array. -/
inductive BatchOutcome where
  | fail : BatchOutcome
  | ok (results : List ItemResult) : BatchOutcome

/-- One payload prepared for the batch call, with its row attribution. -/
structure Prepared where
  record : RecordV
  model_media : List String
  rowIndex : Nat
  modelName : String
  deriving DecidableEq

/-- `nameEmpty` / `igEmpty`: the field is falsy or whitespace-only. -/
def fieldEmpty (m : RecordV) (k : String) : Bool :=
  let v := m.getV k
  !v.truthy || jsTrim v.jsToString = ""

/-- The skip predicate: both `model_name` and `instagram_account` empty. -/
def identityEmpty (m : RecordV) : Bool :=
  fieldEmpty m "model_name" && fieldEmpty m "instagram_account"

/-- The media links extracted by the Row Mapper for one row, as the
non-empty strings of `t.models_media.map(m => m?.link || m?.url)`. -/
def extractedMediaStrings (t : MappedRow) : List String :=
  (t.models_media.map (fun m => (m.getV "link").jsOr (m.getV "url"))).filterMap (fun v =>
    match v with
    | vStr s => if jsTrim s ≠ "" then some s else none
    | _ => none)

/-- Build the forwarded payload for one non-skipped row: a copy of the
record, the media links that pass the validity heuristic, and the
row-attribution fields. -/
def mkPrepared (i : Nat) (t : MappedRow) : Prepared :=
  let model := t.models
  let media := (extractedMediaStrings t).filter isLikelyValidMediaLink
  let modelName :=
    ((model.getV "model_name").jsOr
      ((model.getV "instagram_account").jsOr (vStr ("Row " ++ natToStr (i + 1))))).jsToString
  ⟨model, media, i + 1, modelName⟩

/-- The reason string recorded for a skipped row. -/
def skipReason : String := "no model_name and no instagram_account"

/-- The skip/prepare loop over the transformed rows. -/
def upsertWarnings (transformed : List MappedRow) : List (Nat × String) :=
  transformed.enum.filterMap (fun it =>
    if identityEmpty it.2.models then some (it.1 + 1, skipReason) else none)

def upsertPrepared (transformed : List MappedRow) : List Prepared :=
  transformed.enum.filterMap (fun it =>
    if identityEmpty it.2.models then none else some (mkPrepared it.1 it.2))

/-- The running tallies of the batch loop. -/
structure BatchAcc where
  succeeded : Nat
  failed : Nat
  failures : List (Nat × String × String)
  allIds : List Nat
  twins : List (Nat × Option String × List Nat)
  deriving DecidableEq

def BatchAcc.init : BatchAcc := ⟨0, 0, [], [], []⟩

/-- Processing of one batch item against its (possibly missing) result
entry, mirroring the branch structure of the result loop. -/
def stepItem (acc : BatchAcc) (item : Prepared) (r : Option ItemResult) : BatchAcc :=
  match r with
  | none => { acc with failed := acc.failed + 1 }
  | some .nullish => { acc with failed := acc.failed + 1 }
  | some (.success res) =>
    (match res with
     | some outcome =>
       (match outcome.model_id with
        | some id =>
          if id ≠ 0 then
            let twinHit :=
              (outcome.twinGroupId.getD "") ≠ "" ∨ (outcome.twinCandidates.getD []) ≠ []
            { acc with
              succeeded := acc.succeeded + 1
              allIds := acc.allIds ++ [id]
              twins :=
                if twinHit then
                  acc.twins ++ [(id, outcome.twinGroupId, outcome.twinCandidates.getD [])]
                else acc.twins }
          else { acc with failed := acc.failed + 1 }
        | none => { acc with failed := acc.failed + 1 })
     | none => { acc with failed := acc.failed + 1 })
  | some (.error msg) =>
    { acc with
      failed := acc.failed + 1
      failures := acc.failures ++
        [(item.rowIndex, item.modelName, if msg ≠ "" then msg else "Unknown error")] }
  | some .other => { acc with failed := acc.failed + 1 }

/-- The per-item loop over one batch's results (`batchResults[j]`). -/
def processOkBatch (acc : BatchAcc) : List Prepared → List ItemResult → BatchAcc
  | [], _ => acc
  | item :: rest, results =>
    processOkBatch (stepItem acc item results.head?) rest (results.drop 1)

/-- One batch: a failed fetch marks every item failed; an OK response is
folded item by item. -/
def processBatch (acc : BatchAcc) (batch : List Prepared) (outcome : BatchOutcome) : BatchAcc :=
  match outcome with
  | .fail => { acc with failed := acc.failed + batch.length }
  | .ok results => processOkBatch acc batch results

/-- Fixed-size chunking (`BATCH_SIZE = 50`); the fuel is the list length,
which suffices since each step consumes at least one element. -/
def chunksAux : Nat → List Prepared → List (List Prepared)
  | 0, _ => []
  | _ + 1, [] => []
  | fuel + 1, l => l.take 50 :: chunksAux fuel (l.drop 50)

def chunks50 (l : List Prepared) : List (List Prepared) := chunksAux l.length l

def processBatches (outcomes : Nat → BatchOutcome) :
    List (List Prepared) → Nat → BatchAcc → BatchAcc
  | [], _, acc => acc
  | batch :: rest, k, acc => processBatches outcomes rest (k + 1) (processBatch acc batch (outcomes k))

/-- The final report of the upsert endpoint (counts, attributions, and —
for verification visibility — the prepared batch payloads that were sent
to the external collaborator). -/
structure UpsertReport where
  processed : Nat
  succeeded : Nat
  failed : Nat
  skipped : Nat
  warnings : List (Nat × String)
  failures : List (Nat × String × String)
  insertedIds : List Nat
  twins : List (Nat × Option String × List Nat)
  batchesSent : List (List Prepared)
  deriving DecidableEq

/-- The batch-apply phase of the upsert `POST` over the transformed rows. -/
def upsertProcess (transformed : List MappedRow) (outcomes : Nat → BatchOutcome) :
    UpsertReport :=
  let warnings := upsertWarnings transformed
  let prepared := upsertPrepared transformed
  let batches := chunks50 prepared
  let acc := processBatches outcomes batches 0 BatchAcc.init
  { processed := transformed.length
    succeeded := acc.succeeded
    failed := acc.failed
    skipped := warnings.length
    warnings := warnings
    failures := acc.failures
    insertedIds := acc.allIds
    twins := acc.twins
    batchesSent := batches }

/-- The responses of the upsert `POST`. -/
inductive UpsertResp where
  | missingInput : UpsertResp
  | missingAgency : UpsertResp
  | conflict (ds : String) : UpsertResp
  | serverError : UpsertResp
  | genderUninferable : UpsertResp
  | completed (report : UpsertReport) : UpsertResp
  deriving DecidableEq

/-- The upsert route `POST` (second revision): input checks, the
data-source conflict guard (before the mapping is even parsed), strict
mapping validation, shoe-mapping fallback, gender inference, row mapping,
and the batched forward to the external upsert collaborator. -/
def upsertPOST (supa : SupabaseEnv) (query : String → CountResult) (file : Option CsvFile)
    (mappingStr agencyId genderField : String) (outcomes : Nat → BatchOutcome) : UpsertResp :=
  match file with
  | none => .missingInput
  | some f =>
    if mappingStr = "" then .missingInput
    else if agencyId = "" then .missingAgency
    else
      let ds := requestDataSource (some f)
      if dataSourceExists supa query ds then .conflict ds
      else
        match parseMappingStrict mappingStr with
        | none => .serverError
        | some mapping =>
          let headerKeys := match f.rows with
            | [] => []
            | r :: _ => r.map (·.1)
          let mappingWithFallbacks := ensureShoeMapping mapping headerKeys
          let providedGender :=
            if genderValues.contains (jsTrim genderField) then some (jsTrim genderField) else none
          let inferredGender :=
            match providedGender with
            | some g => some g
            | none => inferGenderFromFilename ds
          match inferredGender with
          | none => .genderUninferable
          | some g =>
            let board := inferModelBoardFromFilename ds
            let transformed := f.rows.map
              (fun row => applyMappingToRow row mappingWithFallbacks ⟨g, board, ds⟩)
            .completed (upsertProcess transformed outcomes)

/-- Modelled from the spec: the Persistent Store contract ("primary table
keyed logically by (name, source-identifier…); must support
existence-check-by-source-identifier, batched insert/upsert").  The
external `batch_upsert_models` collaborator is not part of `src/`; its
effect is modelled as incrementing the per-source record count by the
number of successfully upserted records, which is what the existence
check's count query then observes. -/
def storeAfterIngest (count : String → Nat) (ds : String) (succeeded : Nat) : String → Nat :=
  fun s => if s = ds then count s + succeeded else count s

/-- Modelled from the spec: the existence-check query against an abstract
store state, answering the exact per-source record count. -/
def queryOfStore (count : String → Nat) : String → CountResult :=
  fun ds => .ok (some (count ds))

/-! # Theorems -/

/-- C4: `toCentimeters` maps `"5'7\""` to 170 (5·12+7 = 67 in, ×2.54 =
170.18, rounded to 170), `"180cm"` to 180, and the empty string to null;
and whenever the input contains an explicit `<n> cm` pattern (found by the
cm regex on the normalized, lowercased, trimmed input), that centimeter
value wins outright and is returned rounded to the nearest integer. -/
theorem C4_toCentimeters_lengths :
    toCentimeters (vStr "5'7\"") = vNum (Dec.ofInt 170) ∧
    toCentimeters (vStr "180cm") = vNum (Dec.ofInt 180) ∧
    toCentimeters (vStr "") = vNull ∧
    ∀ (s : String) (q : Dec), s ≠ "" →
      cmScan (normalizeFractionsCm (jsTrim (lowerStr s))).data = some q →
      toCentimeters (vStr s) = vNum (Dec.ofInt q.roundJs) := by
  refine ⟨by decide, by decide, by decide, ?_⟩
  intro s q hs hcm
  unfold toCentimeters
  simp [Val.looseNull, hs, Val.jsToString, hcm]

/-- C4 witness: the cm-wins clause applied at `"180 cm"`. -/
theorem C4_toCentimeters_lengths_witness :
    toCentimeters (vStr "180 cm") = vNum (Dec.ofInt (Dec.ofInt 180).roundJs) :=
  C4_toCentimeters_lengths.2.2.2 "180 cm" (Dec.ofInt 180) (by decide) (by decide)

/-- C7: `inferGenderFromFilename "trans_man_board.csv"` returns `transman`
(not `male`, not `transgender`); and the multi-word compound `trans_man`
(or the token `transman`) deterministically forces `transman` for every
filename, being checked before the generic `trans` hint and before the
single-token male/female synonym sets. -/
theorem C7_gender_inference_precedence :
    inferGenderFromFilename "trans_man_board.csv" = some "transman" ∧
    (some "transman" ≠ some "male" ∧ some "transman" ≠ some "transgender") ∧
    ∀ name : String,
      hasTokenIn (filenameTokens name) "transman" = true ∨
        hasBoundedIn (filenameUnderscored name) "trans_man" = true →
      inferGenderFromFilename name = some "transman" := by
  refine ⟨by decide, ⟨by decide, by decide⟩, ?_⟩
  intro name h
  unfold inferGenderFromFilename
  rcases h with h | h <;> simp [h]

/-- C7 witness: the precedence clause applied at the claim's filename. -/
theorem C7_gender_inference_precedence_witness :
    inferGenderFromFilename "trans_man_board.csv" = some "transman" :=
  C7_gender_inference_precedence.2.2 "trans_man_board.csv" (Or.inr (by decide))

/-- C5: with gender female, `"EU 40"` and `"UK 7"` both convert to UK 7
under the shoe transforms; UK-marked values are taken verbatim whenever
any are present; the conversion offsets are EU−33/US−2 for female,
EU−34/US−1 for male, and the average offsets EU−33.5/US−1.5 otherwise;
and `toUkShoeMin`/`toUkShoeMax` return the minimum/maximum of the
converted value set respectively. -/
theorem C5_shoe_size_conversion :
    (applyTransform (vStr "EU 40") (some "toUkShoeMin:female:") = vNum (Dec.ofInt 7) ∧
     applyTransform (vStr "UK 7") (some "toUkShoeMin:female:") = vNum (Dec.ofInt 7) ∧
     applyTransform (vStr "EU 40") (some "toUkShoeMax:female:") = vNum (Dec.ofInt 7) ∧
     applyTransform (vStr "UK 7") (some "toUkShoeMax:female:") = vNum (Dec.ofInt 7)) ∧
    (∀ n : Dec,
      toUk "female" .eu n = n.sub (Dec.ofNat 33) ∧
      toUk "male" .eu n = n.sub (Dec.ofNat 34) ∧
      toUk "" .eu n = n.sub (Dec.mk' 335 1) ∧
      toUk "female" .us n = n.sub (Dec.ofNat 2) ∧
      toUk "male" .us n = n.sub (Dec.ofNat 1) ∧
      toUk "" .us n = n.sub (Dec.mk' 15 1)) ∧
    (∀ (g : String) (n : Dec), toUk g .uk n = n) ∧
    (∀ (raw : List Char) (g h : String),
      ukVals raw ≠ [] → convertedUk raw g h = ukVals raw) ∧
    (∀ (v : Val) (r : Dec × Dec), parseShoeToUkBounds v "female" "" = some r →
      applyTransform v (some "toUkShoeMin:female:") = vNum r.1 ∧
      applyTransform v (some "toUkShoeMax:female:") = vNum r.2) := by
  refine ⟨⟨by decide, by decide, by decide, by decide⟩, ?_, ?_, ?_, ?_⟩
  · intro n
    exact ⟨rfl, rfl, rfl, rfl, rfl, rfl⟩
  · intro g n
    rfl
  · intro raw g h hne
    unfold convertedUk
    simp [hne]
  · intro v r h
    have hmin : applyTransform v (some "toUkShoeMin:female:") =
        (match parseShoeToUkBounds v "female" "" with
         | some r => vNum r.1
         | none => vNull) := rfl
    have hmax : applyTransform v (some "toUkShoeMax:female:") =
        (match parseShoeToUkBounds v "female" "" with
         | some r => vNum r.2
         | none => vNull) := rfl
    rw [hmin, hmax, h]
    exact ⟨rfl, rfl⟩

/-- The mapping text used by the parser-resilience claim, bare and
wrapped in prose with a fenced block. -/
def bareMappingText : String :=
  "\x7b\"targetTables\":[\"models\"],\"fieldMappings\":\x7b\"models.model_name\":\x7b\"from\":\"Name\"\x7d\x7d\x7d"

def wrappedMappingText : String :=
  "Here is the mapping you asked for.\n```json\n" ++ bareMappingText ++
    "\n```\nLet me know if it needs changes."

/-- C2: `extractJsonObject` tries the whole text as JSON first, then a
fenced code block's contents, then each balanced brace-delimited
candidate, erroring only when all three stages fail; consequently a
mapping wrapped in prose plus a ```json fence and the same bare mapping
object parse to the same validated Mapping, and an unrecoverable text
surfaces an error to the caller together with the raw snippet (the first
600 characters), never a default mapping. -/
theorem C2_mapping_parser_recovery :
    (∀ (t : String) (v : Val), jsonParse t = some v → extractJsonObject t = .ok v) ∧
    (∀ (t : String) (v : Val), jsonParse t = none → fencedParse t = some v →
      extractJsonObject t = .ok v) ∧
    (∀ (t : String) (v : Val), jsonParse t = none → fencedParse t = none →
      braceScanParse (jsTrim t).data = some v → extractJsonObject t = .ok v) ∧
    (∀ t : String, jsonParse t = none → fencedParse t = none →
      braceScanParse (jsTrim t).data = none → extractJsonObject t = .error noJsonMsg) ∧
    (parseMappingFromText wrappedMappingText = parseMappingFromText bareMappingText ∧
     parseMappingFromText bareMappingText =
       .ok ⟨["models"], [("models.model_name", ⟨some (.fstr "Name"), none, none⟩)], none, none⟩) ∧
    (∀ (raw e : String), extractJsonObject raw = .error e →
      parseMappingFromText raw = .error (e, strTake raw 600)) := by
  refine ⟨?_, ?_, ?_, ?_, ⟨by decide, by decide⟩, ?_⟩
  · intro t v h
    unfold extractJsonObject
    rw [h]
  · intro t v h1 h2
    unfold extractJsonObject
    rw [h1, h2]
  · intro t v h1 h2 h3
    unfold extractJsonObject
    rw [h1, h2, h3]
  · intro t h1 h2 h3
    unfold extractJsonObject
    rw [h1, h2, h3]
  · intro raw e h
    unfold parseMappingFromText
    rw [h]

/-- C2 witness: the fenced-recovery clause applied at the wrapped mapping
text, and the error-surfacing clause at an unrecoverable text. -/
theorem C2_mapping_parser_recovery_witness :
    extractJsonObject wrappedMappingText =
      .ok (vObj [("targetTables", vArr [vStr "models"]),
        ("fieldMappings", vObj [("models.model_name", vObj [("from", vStr "Name")])])]) ∧
    parseMappingFromText "no json here" = .error (noJsonMsg, strTake "no json here" 600) := by
  constructor
  · exact C2_mapping_parser_recovery.2.1 wrappedMappingText _ (by decide) (by decide)
  · exact C2_mapping_parser_recovery.2.2.2.2.2 "no json here" noJsonMsg (by decide)

/-- The existence check against an always-empty store is false for every
environment (used to phrase "the guard proceeds as if never ingested"). -/
theorem dataSourceExists_emptyStore (env : SupabaseEnv) (ds : String) :
    dataSourceExists env (queryOfStore (fun _ => 0)) ds = false := by
  unfold dataSourceExists queryOfStore
  by_cases h : env.url = "" ∨ env.key = ""
  · rcases h with h | h <;> simp [h]
  · push_neg at h
    simp [h.1, h.2]

/-- C9: `dataSourceExists` returns false whenever the Supabase URL or
service-role key is unset and whenever the count query errors; under any
such failure both endpoints behave exactly as they would against a store
that has never seen the source identifier — the duplicate guard fails
open instead of reporting a conflict or an error. -/
theorem C9_duplicate_guard_fails_open :
    (∀ (key : String) (query : String → CountResult) (ds : String),
      dataSourceExists ⟨"", key⟩ query ds = false) ∧
    (∀ (url : String) (query : String → CountResult) (ds : String),
      dataSourceExists ⟨url, ""⟩ query ds = false) ∧
    (∀ (env : SupabaseEnv) (query : String → CountResult) (ds msg : String),
      query ds = .err msg → dataSourceExists env query ds = false) ∧
    (∀ (env : SupabaseEnv) (query : String → CountResult),
      (∀ ds, dataSourceExists env query ds = false) →
      ∀ (key : String) (file : Option CsvFile) (genderField : String)
        (proposer : ProposerOutcome),
        previewPOST key env query file genderField proposer =
          previewPOST key env (queryOfStore (fun _ => 0)) file genderField proposer) ∧
    (∀ (env : SupabaseEnv) (query : String → CountResult),
      (∀ ds, dataSourceExists env query ds = false) →
      ∀ (file : Option CsvFile) (mappingStr agencyId genderField : String)
        (outcomes : Nat → BatchOutcome),
        upsertPOST env query file mappingStr agencyId genderField outcomes =
          upsertPOST env (queryOfStore (fun _ => 0)) file mappingStr agencyId genderField
            outcomes) := by
  refine ⟨?_, ?_, ?_, ?_, ?_⟩
  · intro key query ds
    simp [dataSourceExists]
  · intro url query ds
    simp [dataSourceExists]
  · intro env query ds msg h
    unfold dataSourceExists
    rw [h]
    simp
  · intro env query hfail key file genderField proposer
    unfold previewPOST
    simp only [hfail, dataSourceExists_emptyStore]
  · intro env query hfail file mappingStr agencyId genderField outcomes
    unfold upsertPOST
    cases file with
    | none => rfl
    | some f => simp only [hfail, dataSourceExists_emptyStore]

/-- C9 witness: a misconfigured store (query error) lets the upsert
endpoint proceed identically to a never-ingested store. -/
theorem C9_duplicate_guard_fails_open_witness :
    dataSourceExists ⟨"https://x.supabase.co", "k"⟩ (fun _ => .err "boom") "dup.csv" = false ∧
    upsertPOST ⟨"https://x.supabase.co", "k"⟩ (fun _ => .err "boom")
        (some ⟨"women_dup.csv", []⟩) "\x7b\x7d" "agency" "" (fun _ => .fail) =
      upsertPOST ⟨"https://x.supabase.co", "k"⟩ (queryOfStore (fun _ => 0))
        (some ⟨"women_dup.csv", []⟩) "\x7b\x7d" "agency" "" (fun _ => .fail) := by
  constructor
  · exact C9_duplicate_guard_fails_open.2.2.1 ⟨"https://x.supabase.co", "k"⟩ _ "dup.csv"
      "boom" rfl
  · exact C9_duplicate_guard_fails_open.2.2.2.2 ⟨"https://x.supabase.co", "k"⟩ _
      (fun ds => C9_duplicate_guard_fails_open.2.2.1 _ _ ds "boom" rfl) _ _ _ _ _

/-! ### Access lemmas for the forced-field and post-processing steps -/

theorem getF_forceSystemFields_data_source (opts : MapOpts) (r : RecordV) :
    (forceSystemFields opts r).getF "data_source" = some (vStr opts.dataSource) := by
  unfold forceSystemFields
  exact RecordV.getF_setF_same _ _ _

theorem getF_forceSystemFields_gender (opts : MapOpts) (r : RecordV) :
    (forceSystemFields opts r).getF "gender" =
      some (if opts.gender ≠ "" then vStr opts.gender else vNull) := by
  unfold forceSystemFields
  rw [RecordV.getF_setF_ne _ _ _ _ (by decide)]
  by_cases hb : (opts.modelBoard.getD "") ≠ ""
  · rw [if_pos hb, RecordV.getF_setF_ne _ _ _ _ (by decide), RecordV.getF_setF_same]
  · rw [if_neg hb, RecordV.getF_setF_same]

theorem getF_forceSystemFields_board (opts : MapOpts) (r : RecordV)
    (hb : (opts.modelBoard.getD "") ≠ "") :
    (forceSystemFields opts r).getF "model_board_category" =
      some (vStr (opts.modelBoard.getD "")) := by
  unfold forceSystemFields
  rw [RecordV.getF_setF_ne _ _ _ _ (by decide), if_pos hb, RecordV.getF_setF_same]

theorem getF_forceSystemFields_ne (opts : MapOpts) (r : RecordV) (k : String)
    (h1 : k ≠ "gender") (h2 : k ≠ "model_board_category") (h3 : k ≠ "data_source") :
    (forceSystemFields opts r).getF k = r.getF k := by
  unfold forceSystemFields
  rw [RecordV.getF_setF_ne _ _ _ _ (Ne.symm h3)]
  by_cases hb : (opts.modelBoard.getD "") ≠ ""
  · rw [if_pos hb, RecordV.getF_setF_ne _ _ _ _ (Ne.symm h2),
      RecordV.getF_setF_ne _ _ _ _ (Ne.symm h1)]
  · rw [if_neg hb, RecordV.getF_setF_ne _ _ _ _ (Ne.symm h1)]

theorem getF_titleCasePost_ne (r : RecordV) (k : String) (h : k ≠ "model_name") :
    (titleCasePost r).getF k = r.getF k := by
  unfold titleCasePost
  cases hm : r.getF "model_name" with
  | none => rfl
  | some v =>
    by_cases hl : v.looseNull
    · simp [hl]
    · simp [hl, RecordV.getF_setF_ne _ _ _ _ (Ne.symm h)]

theorem titleCasePost_of_no_name (r : RecordV) (h : r.getF "model_name" = none) :
    titleCasePost r = r := by
  unfold titleCasePost
  rw [h]

/-! ### C1 -/

/-- C1 counterexample: with an empty context board and an empty context
gender, a Mapping that targets `models.model_board_category` through its
`default` survives into the record (the system override is conditional on
a truthy context board), and the empty context gender is written as
`null`, not as the context's value. -/
theorem C1_system_fields_cex :
    ((applyMappingToRow []
        ⟨["models"], [("models.model_board_category", ⟨none, none, some (vStr "curve")⟩)],
          none, none⟩
        ⟨"", none, "src.csv"⟩).models.getF "model_board_category" = some (vStr "curve")) ∧
    ((applyMappingToRow []
        ⟨["models"], [("models.model_board_category", ⟨none, none, some (vStr "curve")⟩)],
          none, none⟩
        ⟨"", none, "src.csv"⟩).models.getF "gender" = some vNull) ∧
    some (vStr "curve") ≠ (none : Option Val) ∧ vStr "curve" ≠ vNull := by
  exact ⟨by decide, by decide, by decide, by decide⟩

/-- C1 (amended): for every row, Mapping and context, the returned
record's `data_source` is unconditionally the context's source identifier
and its `gender` is the context's gender when non-empty (null otherwise),
both written after all mapping-driven assignment and overwriting anything
the mapping produced; `model_board_category` is overwritten with the
context's board category whenever the context provides a non-empty one —
with an empty context board a mapping-derived value is retained. -/
theorem C1_system_fields_override (row : Row) (mapping : Mapping) (opts : MapOpts) :
    ((applyMappingToRow row mapping opts).models.getF "data_source" =
      some (vStr opts.dataSource)) ∧
    ((applyMappingToRow row mapping opts).models.getF "gender" =
      some (if opts.gender ≠ "" then vStr opts.gender else vNull)) ∧
    (∀ b : String, opts.modelBoard = some b → b ≠ "" →
      (applyMappingToRow row mapping opts).models.getF "model_board_category" =
        some (vStr b)) := by
  have hmodels : (applyMappingToRow row mapping opts).models =
      titleCasePost (forceSystemFields opts
        (mapping.fieldMappings.foldl
          (fun m kv => processFieldEntry row opts m kv.1 kv.2) [])) := rfl
  refine ⟨?_, ?_, ?_⟩
  · rw [hmodels, getF_titleCasePost_ne _ _ (by decide), getF_forceSystemFields_data_source]
  · rw [hmodels, getF_titleCasePost_ne _ _ (by decide), getF_forceSystemFields_gender]
  · intro b hb hbne
    have hd : (opts.modelBoard.getD "") ≠ "" := by rw [hb]; exact hbne
    rw [hmodels, getF_titleCasePost_ne _ _ (by decide), getF_forceSystemFields_board _ _ hd,
      hb]
    rfl

/-- C1 witness: the amended override applied at a concrete context with a
non-empty board. -/
theorem C1_system_fields_override_witness :
    (applyMappingToRow [("Board", "image")]
        ⟨["models"], [("models.model_board_category", ⟨some (.fstr "Board"), none, none⟩)],
          none, none⟩
        ⟨"female", some "curve", "women.csv"⟩).models.getF "model_board_category" =
      some (vStr "curve") :=
  (C1_system_fields_override [("Board", "image")]
    ⟨["models"], [("models.model_board_category", ⟨some (.fstr "Board"), none, none⟩)],
      none, none⟩
    ⟨"female", some "curve", "women.csv"⟩).2.2 "curve" rfl (by decide)

/-! ### C6 -/

/-- C6 counterexample: a Mapping that explicitly requests `parseNumber`
for `models.shoe_size` does not get `parseNumber` applied — the
gender/unit-aware shoe transform replaces it (`"EU 40"` becomes UK 7,
while `parseNumber` would produce 40). -/
theorem C6_shoe_default_cex :
    ((applyMappingToRow [("Shoe", "EU 40")]
        ⟨["models"], [("models.shoe_size", ⟨some (.fstr "Shoe"), some "parseNumber", none⟩)],
          none, none⟩
        ⟨"female", none, "women.csv"⟩).models.getF "shoe_size" =
      some (vNum (Dec.ofInt 7))) ∧
    applyTransform (vStr "EU 40") (some "parseNumber") = vNum (Dec.ofInt 40) ∧
    vNum (Dec.ofInt 7) ≠ vNum (Dec.ofInt 40) := by
  exact ⟨by decide, by decide, by decide⟩

/-- C6 (amended): for `models.shoe_size` the gender/unit-aware UK shoe
transform is the one applied both when the Mapping requests no transform
(or an empty one) and when it requests the generic `parseNumber`; only a
transform other than those two is honored as requested, in which case the
resulting record value is exactly the requested transform's output (with
the spec's default as fallback). -/
theorem C6_shoe_default_selection :
    (∀ (opts : MapOpts) (sourceKey : Option String),
      effectiveTransform opts "models" "shoe_size" sourceKey (some "parseNumber") =
        effectiveTransform opts "models" "shoe_size" sourceKey none) ∧
    (∀ (opts : MapOpts) (sourceKey : Option String),
      effectiveTransform opts "models" "shoe_size" sourceKey none =
        (if lowerStr opts.gender ≠ "" ∨ unitHintOfKey sourceKey ≠ "" then
          some ("toUkShoeMin:" ++ lowerStr opts.gender ++ ":" ++ unitHintOfKey sourceKey)
        else some "toUkShoeMin")) ∧
    (∀ (opts : MapOpts) (sourceKey : Option String) (t : String), t ≠ "" → t ≠ "parseNumber" →
      effectiveTransform opts "models" "shoe_size" sourceKey (some t) = some t) ∧
    (∀ (row : Row) (opts : MapOpts) (fs : Option FromSpec) (df : Option Val) (t : String),
      t ≠ "" → t ≠ "parseNumber" →
      (applyMappingToRow row
          ⟨["models"], [("models.shoe_size", ⟨fs, some t, df⟩)], none, none⟩ opts).models.getF
          "shoe_size" =
        some (finalValOf (applyTransform (sourceValOf row fs) (some t)) df)) := by
  have hsel : ∀ (opts : MapOpts) (sourceKey : Option String) (t : String), t ≠ "" →
      t ≠ "parseNumber" →
      effectiveTransform opts "models" "shoe_size" sourceKey (some t) = some t := by
    intro opts sourceKey t ht hpn
    unfold effectiveTransform
    simp [shoeTransformByColumn, CM_COLUMNS, MODELS_FIELDS, ht, hpn]
  refine ⟨?_, ?_, hsel, ?_⟩
  · intro opts sourceKey
    unfold effectiveTransform
    simp [shoeTransformByColumn, CM_COLUMNS, MODELS_FIELDS]
  · intro opts sourceKey
    unfold effectiveTransform
    simp [shoeTransformByColumn, CM_COLUMNS, MODELS_FIELDS]
  · intro row opts fs df t ht hpn
    have hmodels : (applyMappingToRow row
        ⟨["models"], [("models.shoe_size", ⟨fs, some t, df⟩)], none, none⟩ opts).models =
        titleCasePost (forceSystemFields opts
          (processFieldEntry row opts [] "models.shoe_size" ⟨fs, some t, df⟩)) := rfl
    have hentry : processFieldEntry row opts [] "models.shoe_size" ⟨fs, some t, df⟩ =
        [("shoe_size", finalValOf (applyTransform (sourceValOf row fs) (some t)) df)] := by
      unfold processFieldEntry
      simp [splitTarget, splitOnChar, splitOnCharAux,
        hsel opts ((getSourceValueWithKey row fs).map (·.2)) t ht hpn, RecordV.setF]
    rw [hmodels, hentry]
    have hnoname : (forceSystemFields opts
        [("shoe_size", finalValOf (applyTransform (sourceValOf row fs) (some t)) df)]).getF
          "model_name" = none := by
      rw [getF_forceSystemFields_ne _ _ _ (by decide) (by decide) (by decide)]
      rfl
    rw [titleCasePost_of_no_name _ hnoname,
      getF_forceSystemFields_ne _ _ _ (by decide) (by decide) (by decide)]
    rfl

/-- C6 witness: the honored-transform clause applied concretely (`trim`
is requested and applied). -/
theorem C6_shoe_default_selection_witness :
    (applyMappingToRow [("Shoe", " 7 ")]
        ⟨["models"], [("models.shoe_size", ⟨some (.fstr "Shoe"), some "trim", none⟩)],
          none, none⟩
        ⟨"female", none, "women.csv"⟩).models.getF "shoe_size" =
      some (finalValOf (applyTransform (sourceValOf [("Shoe", " 7 ")] (some (.fstr "Shoe")))
        (some "trim")) none) :=
  C6_shoe_default_selection.2.2.2 [("Shoe", " 7 ")] ⟨"female", none, "women.csv"⟩
    (some (.fstr "Shoe")) none "trim" (by decide) (by decide)

/-! ### Accounting lemmas for the upsert batch loop -/

theorem stepItem_succ_failed (acc : BatchAcc) (item : Prepared) (r : Option ItemResult) :
    (stepItem acc item r).succeeded + (stepItem acc item r).failed =
      acc.succeeded + acc.failed + 1 := by
  unfold stepItem
  rcases r with _ | ir
  · simp; omega
  rcases ir with _ | res | msg | _
  · simp; omega
  · rcases res with _ | outcome
    · simp; omega
    · rcases hmid : outcome.model_id with _ | id
      · simp [hmid]; omega
      · simp only [hmid]
        split_ifs <;> simp <;> omega
  · simp; omega
  · simp; omega

theorem processOkBatch_succ_failed (batch : List Prepared) :
    ∀ (acc : BatchAcc) (results : List ItemResult),
      (processOkBatch acc batch results).succeeded + (processOkBatch acc batch results).failed =
        acc.succeeded + acc.failed + batch.length := by
  induction batch with
  | nil => intro acc results; simp [processOkBatch]
  | cons item rest ih =>
    intro acc results
    unfold processOkBatch
    rw [ih]
    have := stepItem_succ_failed acc item results.head?
    simp [List.length_cons]
    omega

theorem processBatch_succ_failed (acc : BatchAcc) (batch : List Prepared)
    (outcome : BatchOutcome) :
    (processBatch acc batch outcome).succeeded + (processBatch acc batch outcome).failed =
      acc.succeeded + acc.failed + batch.length := by
  unfold processBatch
  cases outcome with
  | fail => simp; omega
  | ok results => exact processOkBatch_succ_failed batch acc results

theorem processBatches_succ_failed (outcomes : Nat → BatchOutcome)
    (bs : List (List Prepared)) :
    ∀ (k : Nat) (acc : BatchAcc),
      (processBatches outcomes bs k acc).succeeded + (processBatches outcomes bs k acc).failed =
        acc.succeeded + acc.failed + (bs.map List.length).sum := by
  induction bs with
  | nil => intro k acc; simp [processBatches]
  | cons batch rest ih =>
    intro k acc
    unfold processBatches
    rw [ih]
    have := processBatch_succ_failed acc batch (outcomes k)
    simp
    omega

theorem chunksAux_flatten : ∀ (fuel : Nat) (l : List Prepared), l.length ≤ fuel →
    (chunksAux fuel l).flatten = l := by
  intro fuel
  induction fuel with
  | zero =>
    intro l hl
    have : l = [] := List.eq_nil_of_length_eq_zero (Nat.le_zero.mp hl)
    simp [this, chunksAux]
  | succ n ih =>
    intro l hl
    cases l with
    | nil => simp [chunksAux]
    | cons x t =>
      show ((x :: t).take 50 :: chunksAux n ((x :: t).drop 50)).flatten = x :: t
      rw [List.flatten_cons, ih ((x :: t).drop 50)
        (by simp only [List.length_drop]; simp at hl ⊢; omega)]
      exact List.take_append_drop 50 (x :: t)

theorem chunks50_flatten (l : List Prepared) : (chunks50 l).flatten = l :=
  chunksAux_flatten l.length l le_rfl

theorem chunks50_sum_length (l : List Prepared) :
    ((chunks50 l).map List.length).sum = l.length := by
  have h := congrArg List.length (chunks50_flatten l)
  rwa [List.length_flatten] at h

theorem stepItem_failures_sub (acc : BatchAcc) (item : Prepared) (r : Option ItemResult) :
    ∀ x ∈ (stepItem acc item r).failures, x ∈ acc.failures ∨ x.1 = item.rowIndex := by
  unfold stepItem
  rcases r with _ | ir
  · intro x hx; exact Or.inl hx
  rcases ir with _ | res | msg | _
  · intro x hx; exact Or.inl hx
  · rcases res with _ | outcome
    · intro x hx; exact Or.inl hx
    · rcases hmid : outcome.model_id with _ | id
      · simp only [hmid]; intro x hx; exact Or.inl hx
      · simp only [hmid]
        split_ifs <;> intro x hx <;> exact Or.inl hx
  · intro x hx
    simp at hx
    rcases hx with hx | hx
    · exact Or.inl hx
    · right; rw [hx]
  · intro x hx; exact Or.inl hx

theorem processOkBatch_failures_sub (batch : List Prepared) :
    ∀ (acc : BatchAcc) (results : List ItemResult),
      ∀ x ∈ (processOkBatch acc batch results).failures,
        x ∈ acc.failures ∨ ∃ p ∈ batch, x.1 = p.rowIndex := by
  induction batch with
  | nil => intro acc results x hx; exact Or.inl hx
  | cons item rest ih =>
    intro acc results x hx
    unfold processOkBatch at hx
    rcases ih (stepItem acc item results.head?) (results.drop 1) x hx with h | ⟨p, hp, hpr⟩
    · rcases stepItem_failures_sub acc item results.head? x h with h' | h'
      · exact Or.inl h'
      · exact Or.inr ⟨item, List.mem_cons_self _ _, h'⟩
    · exact Or.inr ⟨p, List.mem_cons_of_mem _ hp, hpr⟩

theorem processBatch_failures_sub (acc : BatchAcc) (batch : List Prepared)
    (outcome : BatchOutcome) :
    ∀ x ∈ (processBatch acc batch outcome).failures,
      x ∈ acc.failures ∨ ∃ p ∈ batch, x.1 = p.rowIndex := by
  unfold processBatch
  cases outcome with
  | fail => intro x hx; exact Or.inl hx
  | ok results => exact processOkBatch_failures_sub batch acc results

theorem processBatches_failures_sub (outcomes : Nat → BatchOutcome)
    (bs : List (List Prepared)) :
    ∀ (k : Nat) (acc : BatchAcc),
      ∀ x ∈ (processBatches outcomes bs k acc).failures,
        x ∈ acc.failures ∨ ∃ p ∈ bs.flatten, x.1 = p.rowIndex := by
  induction bs with
  | nil => intro k acc x hx; exact Or.inl hx
  | cons batch rest ih =>
    intro k acc x hx
    unfold processBatches at hx
    rcases ih (k + 1) (processBatch acc batch (outcomes k)) x hx with h | ⟨p, hp, hpr⟩
    · rcases processBatch_failures_sub acc batch (outcomes k) x h with h' | ⟨p, hp, hpr⟩
      · exact Or.inl h'
      · exact Or.inr ⟨p, by simp [hp], hpr⟩
    · exact Or.inr ⟨p, by simp [hp], hpr⟩

/-- Characterization of the prepared payloads: exactly the non-skipped
rows, indexed. -/
theorem mem_upsertPrepared_iff (transformed : List MappedRow) (p : Prepared) :
    p ∈ upsertPrepared transformed ↔
      ∃ i t, transformed.get? i = some t ∧ identityEmpty t.models = false ∧
        p = mkPrepared i t := by
  unfold upsertPrepared
  rw [List.mem_filterMap]
  constructor
  · rintro ⟨⟨i, t⟩, hmem, hf⟩
    by_cases h : identityEmpty t.models
    · simp [h] at hf
    · refine ⟨i, t, ?_, by simp [h], ?_⟩
      · exact List.mk_mem_enum_iff_get?.mp hmem
      · simp [h] at hf
        exact hf.symm
  · rintro ⟨i, t, hget, hemp, hp⟩
    exact ⟨(i, t), List.mk_mem_enum_iff_get?.mpr hget, by simp [hemp, hp]⟩

theorem mem_upsertWarnings (transformed : List MappedRow) (i : Nat) (t : MappedRow)
    (hget : transformed.get? i = some t) (hemp : identityEmpty t.models = true) :
    (i + 1, skipReason) ∈ upsertWarnings transformed := by
  unfold upsertWarnings
  rw [List.mem_filterMap]
  exact ⟨(i, t), List.mk_mem_enum_iff_get?.mpr hget, by simp [hemp]⟩

/-- Count of `filterMap` over an enumeration whose predicate only reads
the element. -/
theorem enumFrom_filterMap_length {β : Type} (P : MappedRow → Bool) (g : Nat × MappedRow → β)
    (l : List MappedRow) :
    ∀ n : Nat,
      ((List.enumFrom n l).filterMap (fun it => if P it.2 then some (g it) else none)).length =
        (l.filter P).length := by
  induction l with
  | nil => intro n; rfl
  | cons x t ih =>
    intro n
    by_cases h : P x <;> simp [List.enumFrom, List.filter_cons, h, ih (n + 1)]

theorem upsertWarnings_length (transformed : List MappedRow) :
    (upsertWarnings transformed).length =
      (transformed.filter (fun t => identityEmpty t.models)).length := by
  unfold upsertWarnings
  exact enumFrom_filterMap_length (fun t => identityEmpty t.models)
    (fun it => (it.1 + 1, skipReason)) transformed 0

theorem upsertPrepared_length (transformed : List MappedRow) :
    (upsertPrepared transformed).length =
      (transformed.filter (fun t => !identityEmpty t.models)).length := by
  unfold upsertPrepared
  have h : ∀ (n : Nat),
      ((List.enumFrom n transformed).filterMap (fun it =>
        if identityEmpty it.2.models then none else some (mkPrepared it.1 it.2))).length =
        (transformed.filter (fun t => !identityEmpty t.models)).length := by
    intro n
    have := enumFrom_filterMap_length (fun t => !identityEmpty t.models)
      (fun it => mkPrepared it.1 it.2) transformed n
    rw [← this]
    congr 1
    apply List.filterMap_congr
    intro it _
    by_cases h : identityEmpty it.2.models <;> simp [h]
  exact h 0

theorem filter_length_add_not (l : List MappedRow) (P : MappedRow → Bool) :
    (l.filter P).length + (l.filter (fun t => !P t)).length = l.length := by
  induction l with
  | nil => rfl
  | cons x t ih => by_cases h : P x <;> simp [List.filter_cons, h] <;> omega

/-! ### C8 -/

/-- C8: in the upsert batch apply, every transformed row whose
`model_name` and `instagram_account` are both empty is counted as skipped
with a warning entry naming its (1-based) row index, contributes no
payload to any forwarded batch, and never appears in the failure
diagnostics; the skip count is exactly the number of such rows, the
success and failure counts account exactly for the non-skipped rows, and
skipped + succeeded + failed equals the number of processed rows. -/
theorem C8_identityless_rows_skipped (transformed : List MappedRow)
    (outcomes : Nat → BatchOutcome) :
    ((upsertProcess transformed outcomes).skipped =
      (transformed.filter (fun t => identityEmpty t.models)).length) ∧
    ((upsertProcess transformed outcomes).succeeded +
      (upsertProcess transformed outcomes).failed = (upsertPrepared transformed).length) ∧
    ((upsertProcess transformed outcomes).skipped +
      (upsertProcess transformed outcomes).succeeded +
      (upsertProcess transformed outcomes).failed =
      (upsertProcess transformed outcomes).processed) ∧
    (∀ (i : Nat) (t : MappedRow), transformed.get? i = some t →
      identityEmpty t.models = true →
      ((i + 1, skipReason) ∈ (upsertProcess transformed outcomes).warnings ∧
       (∀ b ∈ (upsertProcess transformed outcomes).batchesSent, ∀ p ∈ b, p.rowIndex ≠ i + 1) ∧
       (∀ x ∈ (upsertProcess transformed outcomes).failures, x.1 ≠ i + 1))) := by
  have hsf : (upsertProcess transformed outcomes).succeeded +
      (upsertProcess transformed outcomes).failed = (upsertPrepared transformed).length := by
    have hs : (upsertProcess transformed outcomes).succeeded =
        (processBatches outcomes (chunks50 (upsertPrepared transformed)) 0
          BatchAcc.init).succeeded := rfl
    have hf : (upsertProcess transformed outcomes).failed =
        (processBatches outcomes (chunks50 (upsertPrepared transformed)) 0
          BatchAcc.init).failed := rfl
    rw [hs, hf, processBatches_succ_failed, chunks50_sum_length]
    simp [BatchAcc.init]
  have hnotmem : ∀ (i : Nat) (t : MappedRow), transformed.get? i = some t →
      identityEmpty t.models = true →
      ∀ p ∈ upsertPrepared transformed, p.rowIndex ≠ i + 1 := by
    intro i t hget hemp p hp hr
    rcases (mem_upsertPrepared_iff transformed p).mp hp with ⟨j, t', hget', hemp', hpj⟩
    have hj : j = i := by
      have : p.rowIndex = j + 1 := by rw [hpj]; rfl
      omega
    rw [hj, hget] at hget'
    cases hget'
    rw [hemp] at hemp'
    cases hemp'
  have hskip : (upsertProcess transformed outcomes).skipped =
      (upsertWarnings transformed).length := rfl
  refine ⟨upsertWarnings_length transformed, hsf, ?_, ?_⟩
  · have h3 := upsertWarnings_length transformed
    have h4 := upsertPrepared_length transformed
    have h5 := filter_length_add_not transformed (fun t => identityEmpty t.models)
    have h6 : (upsertProcess transformed outcomes).processed = transformed.length := rfl
    omega
  · intro i t hget hemp
    refine ⟨mem_upsertWarnings transformed i t hget hemp, ?_, ?_⟩
    · intro b hb p hp
      apply hnotmem i t hget hemp p
      rw [← chunks50_flatten (upsertPrepared transformed)]
      exact List.mem_flatten.mpr ⟨b, hb, hp⟩
    · intro x hx hxi
      rcases processBatches_failures_sub outcomes (chunks50 (upsertPrepared transformed)) 0
          BatchAcc.init x hx with h | ⟨p, hp, hpr⟩
      · simp [BatchAcc.init] at h
      · rw [chunks50_flatten] at hp
        exact hnotmem i t hget hemp p hp (by rw [← hpr, hxi])

/-- C8 witness: the per-row clause applied to a concrete batch with one
identity-less row. -/
theorem C8_identityless_rows_skipped_witness :
    (1, skipReason) ∈ (upsertProcess [⟨[("model_name", vNull)], []⟩,
      ⟨[("model_name", vStr "Anna")], []⟩] (fun _ => .fail)).warnings :=
  ((C8_identityless_rows_skipped [⟨[("model_name", vNull)], []⟩,
      ⟨[("model_name", vStr "Anna")], []⟩] (fun _ => .fail)).2.2.2 0
    ⟨[("model_name", vNull)], []⟩ rfl (by decide)).1

/-! ### The four-digit-run regex and C10 -/

/-- Invariant characterization of the `\d{4,}` scan: with fewer than four
digits already accumulated, the scan succeeds exactly when the pending run
can be completed by a digit prefix, or a four-digit window occurs further
in. -/
theorem digitRunAux_iff (l : List Char) : ∀ run : Nat, run < 4 →
    (digitRunAux l run = true ↔
      (∃ k, k ≤ l.length ∧ (l.take k).all isDigitCh = true ∧ run + k ≥ 4) ∨
      (∃ ds : List Char, ds.length = 4 ∧ ds.all isDigitCh = true ∧ List.IsInfix ds l)) := by
  induction l with
  | nil =>
    intro run hrun
    constructor
    · intro h
      simp [digitRunAux] at h
      omega
    · rintro (⟨k, hk, _, hge⟩ | ⟨ds, hlen, _, s, u, hst⟩)
      · simp at hk; omega
      · exfalso
        simp only [List.append_eq_nil] at hst
        rw [hst.1.2] at hlen
        simp at hlen
  | cons c t ih =>
    intro run hrun
    by_cases hd : isDigitCh c
    · by_cases h4 : run + 1 ≥ 4
      · constructor
        · intro _
          exact Or.inl ⟨1, by simp, by simp [hd], h4⟩
        · intro _
          unfold digitRunAux
          simp [hd, h4]
      · have hiff := ih (run + 1) (by omega)
        constructor
        · intro h
          unfold digitRunAux at h
          simp [hd, h4] at h
          rcases hiff.mp h with ⟨k, hk, hall, hge⟩ | ⟨ds, hlen, hall, hinf⟩
          · exact Or.inl ⟨k + 1, by simp; omega, by simp [hd, hall], by omega⟩
          · exact Or.inr ⟨ds, hlen, hall, List.infix_cons hinf⟩
        · intro h
          unfold digitRunAux
          simp [hd, h4]
          apply hiff.mpr
          rcases h with ⟨k, hk, hall, hge⟩ | ⟨ds, hlen, hall, s, u, heq⟩
          · cases k with
            | zero => omega
            | succ k' =>
              simp [List.all_cons, hd] at hall
              exact Or.inl ⟨k', by simp at hk; omega, by simpa using hall, by omega⟩
          · cases s with
            | nil =>
              cases ds with
              | nil => simp at hlen
              | cons d ds' =>
                simp at heq
                obtain ⟨hdc, hteq⟩ := heq
                simp [List.all_cons] at hall
                refine Or.inl ⟨3, ?_, ?_, by omega⟩
                · have := congrArg List.length hteq
                  simp at this hlen
                  omega
                · have hds : ds'.length = 3 := by simp at hlen; omega
                  rw [← hteq, List.take_append_of_le_length (by omega),
                    List.take_of_length_le (by omega)]
                  simpa using hall.2
            | cons c' s' =>
              simp at heq
              exact Or.inr ⟨ds, hlen, hall, s', u, by rw [List.append_assoc]; exact heq.2⟩
    · have hiff := ih 0 (by omega)
      constructor
      · intro h
        unfold digitRunAux at h
        simp [hd] at h
        rcases hiff.mp h with ⟨k, hk, hall, hge⟩ | ⟨ds, hlen, hall, hinf⟩
        · refine Or.inr ⟨t.take 4, ?_, ?_, ?_⟩
          · rw [List.length_take]; omega
          · have h44 : t.take 4 = (t.take k).take 4 := by
              rw [List.take_take]
              congr 1
              omega
            rw [h44]
            rw [List.all_eq_true] at hall ⊢
            intro x hx
            exact hall x (List.mem_of_mem_take hx)
          · exact List.infix_cons (List.take_prefix 4 t).isInfix
        · exact Or.inr ⟨ds, hlen, hall, List.infix_cons hinf⟩
      · intro h
        unfold digitRunAux
        simp [hd]
        apply hiff.mpr
        rcases h with ⟨k, hk, hall, hge⟩ | ⟨ds, hlen, hall, s, u, heq⟩
        · cases k with
          | zero => omega
          | succ k' =>
            simp [List.all_cons, hd] at hall
        · cases s with
          | nil =>
            cases ds with
            | nil => simp at hlen
            | cons d ds' =>
              simp at heq
              simp [List.all_cons, heq.1 ▸ hd] at hall
          | cons c' s' =>
            simp at heq
            exact Or.inr ⟨ds, hlen, hall, s', u, by rw [List.append_assoc]; exact heq.2⟩

/-- The `/\d{4,}/` test holds exactly when four consecutive digit
characters occur somewhere in the string. -/
theorem hasDigitRun4_iff (s : String) :
    hasDigitRun4 s = true ↔
      ∃ ds : List Char, ds.length = 4 ∧ ds.all isDigitCh = true ∧ List.IsInfix ds s.data := by
  unfold hasDigitRun4
  rw [digitRunAux_iff s.data 0 (by omega)]
  constructor
  · rintro (⟨k, hk, hall, hge⟩ | h)
    · refine ⟨(s.data.take k).take 4, ?_, ?_, ?_⟩
      · rw [List.length_take, List.length_take]; omega
      · rw [List.all_eq_true] at hall ⊢
        intro x hx
        exact hall x (List.mem_of_mem_take hx)
      · exact ((List.take_prefix 4 (s.data.take k)).trans (List.take_prefix k s.data)).isInfix
    · exact h
  · intro h
    exact Or.inr h

/-- C10: every media link the Row Mapper extracts for a row is forwarded
to the external batch upsert exactly when it parses as a URL whose path
concatenated with its query contains at least four consecutive digits;
all other extracted links are dropped from the forwarded `model_media`
list, for every row. -/
theorem C10_media_link_filter (transformed : List MappedRow) (outcomes : Nat → BatchOutcome) :
    (∀ (i : Nat) (t : MappedRow), transformed.get? i = some t →
      identityEmpty t.models = false →
      ∃ b ∈ (upsertProcess transformed outcomes).batchesSent,
        mkPrepared i t ∈ b ∧
        (mkPrepared i t).model_media =
          (extractedMediaStrings t).filter isLikelyValidMediaLink) ∧
    (∀ (i : Nat) (t : MappedRow) (link : String),
      link ∈ (mkPrepared i t).model_media ↔
        link ∈ extractedMediaStrings t ∧ isLikelyValidMediaLink link = true) ∧
    (∀ link : String, isLikelyValidMediaLink link =
      (match urlParse link with
       | some u => hasDigitRun4 (u.pathname ++ u.search)
       | none => false)) ∧
    (∀ (link : String) (u : UrlParts), urlParse link = some u →
      (isLikelyValidMediaLink link = true ↔
        ∃ ds : List Char, ds.length = 4 ∧ ds.all isDigitCh = true ∧
          List.IsInfix ds (u.pathname ++ u.search).data)) ∧
    (isLikelyValidMediaLink "https://cdn.example.com/photos/1234.jpg" = true ∧
     isLikelyValidMediaLink "https://cdn.example.com/photos/abc.jpg" = false ∧
     isLikelyValidMediaLink "https://img.io/123" = false) := by
  refine ⟨?_, ?_, ?_, ?_, by decide, by decide, by decide⟩
  · intro i t hget hemp
    have hp : mkPrepared i t ∈ upsertPrepared transformed :=
      (mem_upsertPrepared_iff transformed (mkPrepared i t)).mpr ⟨i, t, hget, hemp, rfl⟩
    have hmem : mkPrepared i t ∈ (chunks50 (upsertPrepared transformed)).flatten := by
      rw [chunks50_flatten]
      exact hp
    rcases List.mem_flatten.mp hmem with ⟨b, hb, hbm⟩
    exact ⟨b, hb, hbm, rfl⟩
  · intro i t link
    show link ∈ ((extractedMediaStrings t).filter isLikelyValidMediaLink) ↔ _
    rw [List.mem_filter]
  · intro link
    rfl
  · intro link u hu
    unfold isLikelyValidMediaLink
    rw [hu, hasDigitRun4_iff]

/-- C10 witness: the per-row forwarding clause applied to a concrete row
with one valid and one invalid link. -/
theorem C10_media_link_filter_witness :
    (mkPrepared 0 ⟨[("model_name", vStr "Anna")],
        [[("link", vStr "https://cdn.example.com/photos/1234.jpg")],
         [("link", vStr "https://cdn.example.com/photos/abc.jpg")]]⟩).model_media =
      ["https://cdn.example.com/photos/1234.jpg"] ∧
    ("https://cdn.example.com/photos/1234.jpg" ∈
      (mkPrepared 0 ⟨[("model_name", vStr "Anna")],
        [[("link", vStr "https://cdn.example.com/photos/1234.jpg")],
         [("link", vStr "https://cdn.example.com/photos/abc.jpg")]]⟩).model_media) := by
  constructor
  · decide
  · exact ((C10_media_link_filter [] (fun _ => .fail)).2.1 0
      ⟨[("model_name", vStr "Anna")],
        [[("link", vStr "https://cdn.example.com/photos/1234.jpg")],
         [("link", vStr "https://cdn.example.com/photos/abc.jpg")]]⟩
      "https://cdn.example.com/photos/1234.jpg").mpr ⟨by decide, by decide⟩

/-! ### C3 -/

/-- The report carried by a completed upsert response. -/
def reportOf : UpsertResp → UpsertReport
  | .completed r => r
  | _ => ⟨0, 0, 0, 0, [], [], [], [], []⟩

/-- A concrete first-confirm scenario for the duplicate-ingestion claim. -/
def c3File : CsvFile := ⟨"women_roster.csv", [[("Name", "Anna")]]⟩

def c3Outcomes : Nat → BatchOutcome := fun _ => .ok [.success (some ⟨some 7, none, none⟩)]

def c3FirstResp : UpsertResp :=
  upsertPOST ⟨"u", "k"⟩ (queryOfStore (fun _ => 0)) (some c3File) bareMappingText
    "agency-1" "" c3Outcomes

/-- C3: both endpoints check the upload's source identifier against the
persisted records before any proposal or persistence work and refuse with
a conflict response carrying that identifier (independently of the
proposer outcome and of the mapping payload); consequently, against the
spec-modelled store, a confirm that persisted at least one record makes a
second confirm for the same source identifier — with any other Mapping —
fail as a conflict. -/
theorem C3_duplicate_source_guard :
    (∀ (key : String), key ≠ "" →
      ∀ (env : SupabaseEnv) (query : String → CountResult) (file : Option CsvFile)
        (genderField : String) (proposer : ProposerOutcome),
        dataSourceExists env query (requestDataSource file) = true →
        previewPOST key env query file genderField proposer =
          .conflict (requestDataSource file)) ∧
    (∀ (env : SupabaseEnv) (query : String → CountResult) (f : CsvFile)
      (mappingStr agencyId genderField : String) (outcomes : Nat → BatchOutcome),
      mappingStr ≠ "" → agencyId ≠ "" →
      dataSourceExists env query (requestDataSource (some f)) = true →
      upsertPOST env query (some f) mappingStr agencyId genderField outcomes =
        .conflict (requestDataSource (some f))) ∧
    (∀ (count : String → Nat) (env : SupabaseEnv), env.url ≠ "" → env.key ≠ "" →
      ∀ (f : CsvFile) (mappingStr agencyId genderField : String)
        (outcomes : Nat → BatchOutcome) (r : UpsertReport),
        upsertPOST env (queryOfStore count) (some f) mappingStr agencyId genderField outcomes =
          .completed r →
        1 ≤ r.succeeded →
        ∀ (mappingStr' agencyId' genderField' : String) (outcomes' : Nat → BatchOutcome),
          mappingStr' ≠ "" → agencyId' ≠ "" →
          upsertPOST env
              (queryOfStore (storeAfterIngest count (requestDataSource (some f)) r.succeeded))
              (some f) mappingStr' agencyId' genderField' outcomes' =
            .conflict (requestDataSource (some f))) := by
  have hupsert : ∀ (env : SupabaseEnv) (query : String → CountResult) (f : CsvFile)
      (mappingStr agencyId genderField : String) (outcomes : Nat → BatchOutcome),
      mappingStr ≠ "" → agencyId ≠ "" →
      dataSourceExists env query (requestDataSource (some f)) = true →
      upsertPOST env query (some f) mappingStr agencyId genderField outcomes =
        .conflict (requestDataSource (some f)) := by
    intro env query f mappingStr agencyId genderField outcomes hm ha hex
    unfold upsertPOST
    simp [hm, ha, hex]
  refine ⟨?_, hupsert, ?_⟩
  · intro key hkey env query file genderField proposer hex
    unfold previewPOST
    simp [hkey, hex]
  · intro count env hu hk f mappingStr agencyId genderField outcomes r _ hsucc
    intro mappingStr' agencyId' genderField' outcomes' hm' ha'
    apply hupsert env _ f mappingStr' agencyId' genderField' outcomes' hm' ha'
    unfold dataSourceExists queryOfStore storeAfterIngest
    simp [hu, hk]
    omega

/-- C3 witness: a concrete confirm that persists one record, after which
the same source identifier is rejected as a conflict even with a
different mapping payload. -/
theorem C3_duplicate_source_guard_witness :
    upsertPOST ⟨"u", "k"⟩
        (queryOfStore (storeAfterIngest (fun _ => 0) (requestDataSource (some c3File))
          (reportOf c3FirstResp).succeeded))
        (some c3File) "\x7b\x7d" "agency-2" "" (fun _ => .fail) =
      .conflict (requestDataSource (some c3File)) :=
  C3_duplicate_source_guard.2.2 (fun _ => 0) ⟨"u", "k"⟩ (by decide) (by decide) c3File
    bareMappingText "agency-1" "" c3Outcomes (reportOf c3FirstResp) (by decide) (by decide)
    "\x7b\x7d" "agency-2" "" (fun _ => .fail) (by decide) (by decide)

/-- C5 witness: the UK-verbatim clause and the min/max clause applied at
concrete inputs. -/
theorem C5_shoe_size_conversion_witness :
    convertedUk "uk 6-7".data "female" "" = ukVals "uk 6-7".data ∧
    applyTransform (vStr "uk 6-7") (some "toUkShoeMin:female:") = vNum (Dec.ofInt 6) ∧
    applyTransform (vStr "uk 6-7") (some "toUkShoeMax:female:") = vNum (Dec.ofInt 7) := by
  refine ⟨C5_shoe_size_conversion.2.2.2.1 "uk 6-7".data "female" "" (by decide), ?_, ?_⟩
  · exact (C5_shoe_size_conversion.2.2.2.2 (vStr "uk 6-7") (Dec.ofInt 6, Dec.ofInt 7)
      (by decide)).1
  · exact (C5_shoe_size_conversion.2.2.2.2 (vStr "uk 6-7") (Dec.ofInt 6, Dec.ofInt 7)
      (by decide)).2

end Aida
